import Mathlib

/-!
Verification development for the swebench-reviewer log-analysis engine
(`src/src-tauri/src/analysis.rs`).

The Rust source drives its extraction passes with precompiled regular
expressions (the `lazy_static` block at the top of `analysis.rs`).  We model
them with a small executable backtracking matcher (`Rx` namespace below) whose
pattern values mirror the source regex strings one constructor per regex
token.  Strings are modelled at byte granularity, one `Char` per byte
(ASCII-faithful; the source's UTF-8 char-boundary adjustment loops are the
identity on such inputs, and Unicode-aware case folding is modelled by
ASCII case folding).
-/

set_option autoImplicit false

namespace SwebenchReviewer

/-! ### Character classes (models of the regex classes used by the source) -/

/-- Models regex `\s` (whitespace class). -/
def isWsChar (c : Char) : Bool :=
  c = ' ' || c = '\t' || c = '\n' || c = '\r' || c = Char.ofNat 11 || c = Char.ofNat 12

/-- Models regex `\w` (word class, as used by `\b` and `\w`). -/
def isWordChar (c : Char) : Bool :=
  c.isAlphanum || c = '_'

namespace Rx

/-- Syntax of the regular expressions appearing in the source's
`lazy_static` block: character classes, sequencing, alternation,
greedy/lazy repetition, optional parts, numbered capture groups, the `^`/`$`
anchors and the `\b` word boundary. -/
inductive RE where
  | eps
  | cls (p : Char → Bool)
  | seq (a b : RE)
  | alt (a b : RE)
  | star (greedy : Bool) (r : RE)
  | opt (greedy : Bool) (r : RE)
  | group (n : Nat) (r : RE)
  | bos
  | eos
  | wb

/-- Capture records: (group index, start, end) in match order, most recent
first. -/
abbrev Caps := List (Nat × Nat × Nat)

/-- Continuation used by the backtracking matcher. -/
abbrev K := Nat → Caps → Option (Nat × Caps)

/-- One layer of the backtracking matcher, structurally recursive on the
pattern; `loop` is invoked to re-enter a `star` after its body consumed at
least one character (it decrements the fuel of `mtch` below).  The
semantics is the leftmost-first semantics of the `regex` crate for the
feature subset used by the source: alternation tries the left branch
first, greedy repetition tries the longer match first, lazy repetition the
shorter. -/
def mtchRe (inp : Array Char) (loop : RE → Nat → Caps → K → Option (Nat × Caps)) :
    RE → Nat → Caps → K → Option (Nat × Caps)
  | .eps, pos, caps, k => k pos caps
  | .cls p, pos, caps, k =>
    if h : pos < inp.size then
      (if p (inp.get ⟨pos, h⟩) then k (pos+1) caps else none)
    else none
  | .seq a b, pos, caps, k =>
    mtchRe inp loop a pos caps (fun p c => mtchRe inp loop b p c k)
  | .alt a b, pos, caps, k =>
    (mtchRe inp loop a pos caps k).orElse (fun _ => mtchRe inp loop b pos caps k)
  | .star g r, pos, caps, k =>
    let body := fun (kk : K) =>
      mtchRe inp loop r pos caps
        (fun p c => if p = pos then none else loop (.star g r) p c kk)
    if g then (body k).orElse (fun _ => k pos caps)
    else (k pos caps).orElse (fun _ => body k)
  | .opt g r, pos, caps, k =>
    if g then (mtchRe inp loop r pos caps k).orElse (fun _ => k pos caps)
    else (k pos caps).orElse (fun _ => mtchRe inp loop r pos caps k)
  | .group n r, pos, caps, k =>
    mtchRe inp loop r pos caps (fun p c => k p ((n, pos, p) :: c))
  | .bos, pos, caps, k => if pos = 0 then k pos caps else none
  | .eos, pos, caps, k => if pos = inp.size then k pos caps else none
  | .wb, pos, caps, k =>
    let before := decide (0 < pos) && isWordChar (inp.getD (pos-1) ' ')
    let after := decide (pos < inp.size) && isWordChar (inp.getD pos ' ')
    if before != after then k pos caps else none

/-- Fuelled matcher: `fuel` bounds the `star` loop iterations; every loop
iteration consumes at least one character, so `input.size + 1` fuel is
always enough. -/
def mtch (inp : Array Char) : Nat → RE → Nat → Caps → K → Option (Nat × Caps)
  | 0, _, _, _, _ => none
  | fuel+1, re, pos, caps, k => mtchRe inp (mtch inp fuel) re pos caps k

/-- Result of a successful search: match span and captures. -/
structure MatchRes where
  mstart : Nat
  mend : Nat
  caps : Caps
deriving Repr

/-- Leftmost search: try a match starting at `start`, `start+1`, … and
return the first success (the semantics of `Regex::captures` / `find_at`);
`steps` counts down the remaining start positions. -/
def searchSteps (re : RE) (inp : Array Char) : Nat → Nat → Option MatchRes
  | 0, _ => none
  | steps+1, start =>
    if start ≤ inp.size then
      match mtch inp (inp.size + 1) re start [] (fun p c => some (p, c)) with
      | some (e, c) => some ⟨start, e, c⟩
      | none => searchSteps re inp steps (start + 1)
    else none

/-- `Regex::captures` / `find_at`: leftmost search from `start`. -/
def searchFrom (re : RE) (inp : Array Char) (start : Nat) : Option MatchRes :=
  searchSteps re inp (inp.size + 1 - start) start

/-- All non-overlapping matches from the left (the semantics of
`find_iter` / `captures_iter`). -/
def findIter (re : RE) (inp : Array Char) (start : Nat) (fuel : Nat) : List MatchRes :=
  match fuel with
  | 0 => []
  | fuel+1 =>
    match searchFrom re inp start with
    | none => []
    | some m =>
      m :: findIter re inp (if m.mend = m.mstart then m.mend + 1 else m.mend) fuel

/-- Slice `[a, b)` of the input as a string. -/
def sliceStr (inp : Array Char) (a b : Nat) : String :=
  String.mk ((inp.toList.drop a).take (b - a))

/-- The span of capture group `n`, if that group participated in the match. -/
def capSpan (caps : Caps) (n : Nat) : Option (Nat × Nat) :=
  (caps.find? (fun t => t.1 = n)).map (fun t => t.2)

/-- The text of capture group `n`. -/
def capStr (inp : Array Char) (m : MatchRes) (n : Nat) : Option String :=
  (capSpan m.caps n).map (fun s => sliceStr inp s.1 s.2)

end Rx

/-! ### String helpers modelling the `str` methods used by the source
(at byte granularity, ASCII case folding) -/

/-- Convert a string to its character array (one entry per byte in the
ASCII model). -/
def arr (s : String) : Array Char := s.toList.toArray

/-- Models Rust `str::to_lowercase`. -/
def toLowerStr (s : String) : String := String.mk (s.toList.map Char.toLower)

def isPrefixL : List Char → List Char → Bool
  | [], _ => true
  | _ :: _, [] => false
  | p :: ps, c :: cs => p = c && isPrefixL ps cs

def containsL : List Char → List Char → Bool
  | h, n => if isPrefixL n h then true else
    match h with
    | [] => false
    | _ :: t => containsL t n

/-- Models Rust `str::contains` (substring test). -/
def containsStr (hay needle : String) : Bool := containsL hay.toList needle.toList

/-- Models Rust `str::starts_with`. -/
def sw (s pre : String) : Bool := isPrefixL pre.toList s.toList

/-- Models Rust `str::trim` (both ends). -/
def trimStr (s : String) : String :=
  String.mk (((s.toList.dropWhile isWsChar).reverse.dropWhile isWsChar).reverse)

/-- Models Rust `str::trim_end`. -/
def trimEndStr (s : String) : String :=
  String.mk ((s.toList.reverse.dropWhile isWsChar).reverse)

/-- Models Rust `str::eq_ignore_ascii_case`. -/
def eqIC (a b : String) : Bool := toLowerStr a = toLowerStr b

/-- Split on a single character, keeping empty pieces (Rust `str::split(c)`). -/
def splitCharL (c : Char) : List Char → List String
  | [] => [""]
  | x :: t =>
    let rest := splitCharL c t
    if x = c then "" :: rest
    else
      match rest with
      | [] => [String.mk [x]]
      | r :: rs => (String.mk (x :: r.toList)) :: rs

def splitChar (c : Char) (s : String) : List String := splitCharL c s.toList

/-- Models Rust `str::lines`: split at `\n`, drop a final empty piece, strip
one trailing `\r` from each line. -/
def rustLines (s : String) : List String :=
  let parts := splitChar '\n' s
  let parts := if parts ≠ [] ∧ parts.getLast! = "" then parts.dropLast else parts
  parts.map (fun l =>
    match l.toList.reverse with
    | '\r' :: rest => String.mk rest.reverse
    | _ => l)

def findSubPosL (h n : List Char) (acc : Nat) : Option Nat :=
  if isPrefixL n h then some acc else
    match h with
    | [] => none
    | _ :: t => findSubPosL t n (acc + 1)

/-- Models Rust `str::find(&str)` (position of first occurrence). -/
def findSubPos (hay needle : String) : Option Nat := findSubPosL hay.toList needle.toList 0

/-- Models Rust `str::find(char)`. -/
def findCharPos (s : String) (c : Char) : Option Nat :=
  s.toList.findIdx? (fun x => x = c)

/-- First `n` characters as a string (byte-slice `[..n]` in the model). -/
def takeChars (s : String) (n : Nat) : String := String.mk (s.toList.take n)

/-- Drop the first `n` characters (byte-slice `[n..]` in the model). -/
def dropChars (s : String) (n : Nat) : String := String.mk (s.toList.drop n)

/-- Models Rust slice `split`-by-substring (used for `split("::")`); the
fuel is an upper bound on the remaining length, so matches on a non-empty
separator always make progress. -/
def splitSubF (sep : List Char) : Nat → List Char → List String
  | _, [] => [""]
  | 0, _ :: _ => [""]
  | fuel+1, c :: t =>
    if sep ≠ [] ∧ isPrefixL sep (c :: t) = true then
      "" :: splitSubF sep fuel ((c :: t).drop sep.length)
    else
      match splitSubF sep fuel t with
      | [] => [String.mk [c]]
      | r :: rs => (String.mk (c :: r.toList)) :: rs

/-- Models Rust `str::split(&str)` (kept pieces, including empty ones). -/
def splitSub (s sep : String) : List String :=
  splitSubF sep.toList s.toList.length s.toList

/-- Models Rust `str::replace(pat, rep)` (same fuel discipline). -/
def replaceSubF (pat rep : List Char) : Nat → List Char → List Char
  | _, [] => []
  | 0, l => l
  | fuel+1, c :: t =>
    if pat ≠ [] ∧ isPrefixL pat (c :: t) = true then
      rep ++ replaceSubF pat rep fuel ((c :: t).drop pat.length)
    else
      c :: replaceSubF pat rep fuel t

def replaceSub (s pat rep : String) : String :=
  String.mk (replaceSubF pat.toList rep.toList s.toList.length s.toList)

/-- Models Rust `[T]::join(sep)` for string slices. -/
def joinSep (sep : String) : List String → String
  | [] => ""
  | [x] => x
  | x :: xs => x ++ sep ++ joinSep sep xs

/-- Apostrophe character, used to build the `thread '<name>'` panic needle. -/
def aposC : Char := Char.ofNat 39

/-- Models `format!("thread '{}'", test_name)`. -/
def threadNeedle (name : String) : String :=
  "thread " ++ String.singleton aposC ++ name ++ String.singleton aposC

/-- List of `(index, element)` pairs, modelling `iter().enumerate()`. -/
def indexed {α : Type} (l : List α) : List (Nat × α) :=
  (List.range l.length).zip l

/-! ### The source's regex table (`lazy_static` block of `analysis.rs`),
one Lean pattern value per regex, mirrored token by token. -/

namespace Rx

/-- Sequence a list of patterns. -/
def seqs : List RE → RE
  | [] => .eps
  | [r] => r
  | r :: rs => .seq r (seqs rs)

/-- Alternation of a list of patterns, left branch first. -/
def alts : List RE → RE
  | [] => .eps
  | [r] => r
  | r :: rs => .alt r (alts rs)

/-- Case-insensitive literal character (all patterns below carry `(?i)`). -/
def chC (c : Char) : RE := .cls (fun x => x.toLower = c.toLower)

/-- Case-sensitive literal character (for `\.`, `[`, `(` …). -/
def chE (c : Char) : RE := .cls (fun x => x = c)

/-- Case-insensitive literal word. -/
def litCI (s : String) : RE := seqs (s.toList.map chC)

/-- Class pattern `\s`. -/
def wsC : RE := .cls isWsChar
/-- Pattern `\s+` (greedy). -/
def wsP : RE := .seq wsC (.star true wsC)
/-- Pattern `\s*` (greedy). -/
def wsStar : RE := .star true wsC
/-- Class pattern `[^\s]`. -/
def nonWsC : RE := .cls (fun c => !isWsChar c)
/-- Pattern `[^\s]+` (greedy). -/
def nonWsP : RE := .seq nonWsC (.star true nonWsC)
/-- Class pattern `.` (any char but newline). -/
def dotC : RE := .cls (fun c => !(c = '\n'))
/-- Pattern `.+?` (lazy). -/
def dotPlusLazy : RE := .seq dotC (.star false dotC)
/-- Pattern `.+` (greedy). -/
def dotPlusGreedy : RE := .seq dotC (.star true dotC)
/-- Pattern `.*?` (lazy). -/
def dotStarLazy : RE := .star false dotC
/-- Pattern `.*` (greedy). -/
def dotStarGreedy : RE := .star true dotC
/-- Pattern `\w+` (greedy). -/
def wordP : RE := .seq (.cls isWordChar) (.star true (.cls isWordChar))
/-- Pattern `\d+` (greedy). -/
def digitP : RE := .seq (.cls Char.isDigit) (.star true (.cls Char.isDigit))
/-- Literal `\.\.\.`. -/
def dots3 : RE := seqs [chE '.', chE '.', chE '.']
/-- Pattern `\.{2,}` (greedy). -/
def dots2plus : RE := seqs [chE '.', chE '.', .star true (chE '.')]

/-- Status alternation `(ok|FAILED|ignored|error)` as capture group `n`
(case-insensitive, so the `FAILED` spelling matches `failed`). -/
def statusG (n : Nat) : RE :=
  .group n (alts [litCI "ok", litCI "failed", litCI "ignored", litCI "error"])

/-- Name pattern `([^\s]+(?:::\w+)*)` as capture group 1. -/
def nameWordG : RE :=
  .group 1 (seqs [nonWsP, .star true (seqs [chE ':', chE ':', wordP])])

/-- Name pattern `([^\s]+(?:::[^\s]+)*)` (without capture). -/
def nameNonWs : RE :=
  seqs [nonWsP, .star true (seqs [chE ':', chE ':', nonWsP])]

/-- `(?i)\btest\s+(.+?)\s+\.\.\.\s+(ok|FAILED|ignored|error)\s*$` -/
def TEST_LINE_RE : RE :=
  seqs [.wb, litCI "test", wsP, .group 1 dotPlusLazy, wsP, dots3, wsP, statusG 2, wsStar, .eos]

/-- `(?i)\btest\s+(.+?)\s+\.\.\.\s+(ok|FAILED|ignored|error)\s+(.+)` -/
def TEST_MIXED_FORMAT_RE : RE :=
  seqs [.wb, litCI "test", wsP, .group 1 dotPlusLazy, wsP, dots3, wsP, statusG 2, wsP,
        .group 3 dotPlusGreedy]

/-- `(?i)\btest\s+(.+?)\s+\.\.\.\s*(.*?)$` -/
def TEST_START_RE : RE :=
  seqs [.wb, litCI "test", wsP, .group 1 dotPlusLazy, wsP, dots3, wsStar,
        .group 2 dotStarLazy, .eos]

/-- `(?i)\b(ok|failed|ignored|error)\b` -/
def STATUS_RE : RE := seqs [.wb, statusG 1, .wb]

/-- `(?i)\b(ok|failed|ignored|error)\s*$` -/
def STATUS_AT_END_RE : RE := seqs [.wb, statusG 1, wsStar, .eos]

/-- `(?i)^(ok|FAILED|ignored|error)` -/
def STATUS_AT_START_RE : RE := seqs [.bos, statusG 1]

/-- `(?i)\btest\s+[^\s]+\s+\.\.\.\s*` -/
def ANOTHER_TEST_RE : RE := seqs [.wb, litCI "test", wsP, nonWsP, wsP, dots3, wsStar]

/-- `(?i)\btest\s+([^\s]+(?:::\w+)*)\s+\.\.\.\s*o\s*$` -/
def TEST_WITH_O_RE : RE :=
  seqs [.wb, litCI "test", wsP, nameWordG, wsP, dots3, wsStar, chC 'o', wsStar, .eos]

/-- `(?i)\btest\s+([^\s]+(?:::\w+)*)\s+\.\.\.\s*` -/
def TEST_STARTS_RE : RE := seqs [.wb, litCI "test", wsP, nameWordG, wsP, dots3, wsStar]

/-- `(?i)\b(ok|failed|ignored|error)\b` (second copy in the source). -/
def STATUS_IN_TEXT_RE : RE := STATUS_RE

/-- `(?i)(?:line)?test\s+([^\s]+(?:::\w+)*)\s+\.\.\.\s*` -/
def CORRUPTED_TEST_LINE_RE : RE :=
  seqs [.opt true (litCI "line"), litCI "test", wsP, nameWordG, wsP, dots3, wsStar]

/-- `(?i)Running\s+([^\s]+(?:/[^\s]+)*\.(?:rs|fixed))\s*\(` -/
def FILE_BOUNDARY_RE_1 : RE :=
  seqs [litCI "Running", wsP,
        .group 1 (seqs [nonWsP, .star true (.seq (chE '/') nonWsP), chE '.',
                        alts [litCI "rs", litCI "fixed"]]),
        wsStar, chE '(']

/-- `(?i)===\s*Running\s+(.+\.(?:rs|fixed))` -/
def FILE_BOUNDARY_RE_2 : RE :=
  seqs [chE '=', chE '=', chE '=', wsStar, litCI "Running", wsP,
        .group 1 (seqs [dotPlusGreedy, chE '.', alts [litCI "rs", litCI "fixed"]])]

/-- `(?i)test\s+result:\s+ok\.\s+\d+\s+passed.*for\s+(.+\.(?:rs|fixed))` -/
def FILE_BOUNDARY_RE_3 : RE :=
  seqs [litCI "test", wsP, litCI "result:", wsP, litCI "ok", chE '.', wsP, digitP, wsP,
        litCI "passed", dotStarGreedy, litCI "for", wsP,
        .group 1 (seqs [dotPlusGreedy, chE '.', alts [litCI "rs", litCI "fixed"]])]

/-- `(?i)\btest\s+([^\s]+(?:::[^\s]+)*)\s*\.{2,}\s*(ok|FAILED|ignored|error)` -/
def ENH_TEST_RE_1 : RE :=
  seqs [.wb, litCI "test", wsP, .group 1 nameNonWs, wsStar, dots2plus, wsStar, statusG 2]

/-- `(?i)test\s+([^\s]+)\s+\.\.\.\s+(ok|FAILED|ignored|error)` -/
def ENH_TEST_RE_2 : RE :=
  seqs [litCI "test", wsP, .group 1 nonWsP, wsP, dots3, wsP, statusG 2]

/-- `(?i)^([^\s]+(?:/[^\s]+)*\.(?:rs|fixed|toml|txt|md)(?:\s+\(revision\s+[^)]+\))?)\s+\.\.\.\s+(ok|FAILED|ignored|error)\s*$` -/
def UI_TEST_PATH_RE : RE :=
  seqs [.bos,
        .group 1 (seqs [nonWsP, .star true (.seq (chE '/') nonWsP), chE '.',
                        alts [litCI "rs", litCI "fixed", litCI "toml", litCI "txt", litCI "md"],
                        .opt true (seqs [wsP, chE '(', litCI "revision", wsP,
                                         .seq (.cls (fun c => !(c = ')')))
                                              (.star true (.cls (fun c => !(c = ')')))),
                                         chE ')'])]),
        wsP, dots3, wsP, statusG 2, wsStar, .eos]

/-- `UI_TEST_PATH_SIMPLE_RE` is character-for-character the same pattern
as `UI_TEST_PATH_RE` in the source. -/
def UI_TEST_PATH_SIMPLE_RE : RE := UI_TEST_PATH_RE

/-- `(?i)\s*PASS\s+\[[^\]]+\]\s+(.+?)\s*$` -/
def NEXTEST_PASS_RE : RE :=
  seqs [wsStar, litCI "PASS", wsP, chE '[',
        .seq (.cls (fun c => !(c = ']'))) (.star true (.cls (fun c => !(c = ']')))),
        chE ']', wsP, .group 1 dotPlusLazy, wsStar, .eos]

/-- `(?i)\s*FAIL\s+\[[^\]]+\]\s+(.+?)\s*$` -/
def NEXTEST_FAIL_RE : RE :=
  seqs [wsStar, litCI "FAIL", wsP, chE '[',
        .seq (.cls (fun c => !(c = ']'))) (.star true (.cls (fun c => !(c = ']')))),
        chE ']', wsP, .group 1 dotPlusLazy, wsStar, .eos]

/-- `(?i)\s*(SKIP|IGNORED)\s+\[[^\]]+\]\s+(.+?)\s*$` -/
def NEXTEST_SKIP_RE : RE :=
  seqs [wsStar, .group 1 (.alt (litCI "SKIP") (litCI "IGNORED")), wsP, chE '[',
        .seq (.cls (fun c => !(c = ']'))) (.star true (.cls (fun c => !(c = ']')))),
        chE ']', wsP, .group 2 dotPlusLazy, wsStar, .eos]

/-- ANSI escape detection: ESC (0x1B) followed by either a single char in
`[@-Z\\-_]`, or a CSI sequence: `[`, then chars 0x30–0x3F, then chars
0x20–0x2F, then a final char in 0x40–0x7E (mirrors `ANSI_RE`). -/
def ANSI_RE : RE :=
  .seq (chE (Char.ofNat 27))
    (.alt (.cls (fun c =>
            decide ((0x40 ≤ c.toNat ∧ c.toNat ≤ 0x5A) ∨ (0x5C ≤ c.toNat ∧ c.toNat ≤ 0x5F))))
          (seqs [chE '[',
                 .star true (.cls (fun c => decide (0x30 ≤ c.toNat ∧ c.toNat ≤ 0x3F))),
                 .star true (.cls (fun c => decide (0x20 ≤ c.toNat ∧ c.toNat ≤ 0x2F))),
                 .cls (fun c => decide (0x40 ≤ c.toNat ∧ c.toNat ≤ 0x7E))]))

/-- `^\s{4}(.+?)\s*$` -/
def FAILURES_BLOCK_RE : RE :=
  seqs [.bos, wsC, wsC, wsC, wsC, .group 1 dotPlusLazy, wsStar, .eos]

/-- `(?i)test\s+([^\s]+(?:::[^\s]+)*)\s*\.{2,}` -/
def SINGLE_LINE_START_RE : RE :=
  seqs [litCI "test", wsP, .group 1 nameNonWs, wsStar, dots2plus]

/-- `(?i)test\s+[^\s]+(?:::[^\s]+)*\s*\.{2,}` -/
def SINGLE_LINE_NEXT_TEST_RE : RE :=
  seqs [litCI "test", wsP, nameNonWs, wsStar, dots2plus]

/-- `(?i)^(ok|FAILED|ignored|error)` -/
def SINGLE_LINE_STATUS_AT_START_RE : RE := seqs [.bos, statusG 1]

/-- `(?i)test\s+[^\s]+(?:::[^\s]+)*\s*\.{2,}\s*(ok|FAILED|ignored|error)` -/
def SIMPLE_PATTERN_RE : RE :=
  seqs [litCI "test", wsP, nameNonWs, wsStar, dots2plus, wsStar, statusG 1]

end Rx

/-! ### Regex API wrappers (models of `Regex::captures`, `is_match`,
`find_iter`, `captures_iter`, `find_at`, `replace_all`) -/

open Rx in
/-- Models `RE.captures(s)` returning capture group 1. -/
def reCapture1 (re : RE) (s : String) : Option String :=
  let a := arr s
  (searchFrom re a 0).bind (fun m => capStr a m 1)

open Rx in
/-- Models `RE.captures(s)` returning capture groups 1 and 2. -/
def reCapture2 (re : RE) (s : String) : Option (String × String) :=
  let a := arr s
  (searchFrom re a 0).bind (fun m =>
    match capStr a m 1, capStr a m 2 with
    | some g1, some g2 => some (g1, g2)
    | _, _ => none)

open Rx in
/-- Models `RE.is_match(s)`. -/
def reIsMatch (re : RE) (s : String) : Bool :=
  (searchFrom re (arr s) 0).isSome

open Rx in
/-- Models `RE.find_iter(s).count()`. -/
def reFindCount (re : RE) (s : String) : Nat :=
  let a := arr s
  (findIter re a 0 (a.size + 1)).length

open Rx in
/-- Models `RE.find_iter(s)` yielding `(matched text, match start)` pairs. -/
def reFindWithPos (re : RE) (s : String) : List (String × Nat) :=
  let a := arr s
  (findIter re a 0 (a.size + 1)).map (fun m => (sliceStr a m.mstart m.mend, m.mstart))

open Rx in
/-- Models `RE.captures_iter(s)` yielding `(group 1, match start of group 0)`. -/
def reCapIter1Pos (re : RE) (s : String) : List (String × Nat) :=
  let a := arr s
  (findIter re a 0 (a.size + 1)).filterMap (fun m =>
    (capStr a m 1).map (fun g1 => (g1, m.mstart)))

open Rx in
/-- Models `RE.captures_iter(s)` yielding `(group 1, group 2)` pairs. -/
def reCapIter2 (re : RE) (s : String) : List (String × String) :=
  let a := arr s
  (findIter re a 0 (a.size + 1)).filterMap (fun m =>
    match capStr a m 1, capStr a m 2 with
    | some g1, some g2 => some (g1, g2)
    | _, _ => none)

open Rx in
/-- Models `RE.captures_iter(s)` yielding `(group 1, end of whole match)`. -/
def reCapIter1End (re : RE) (s : String) : List (String × Nat) :=
  let a := arr s
  (findIter re a 0 (a.size + 1)).filterMap (fun m =>
    (capStr a m 1).map (fun g1 => (g1, m.mend)))

open Rx in
/-- Models `RE.find_at(s, pos)` returning the match start. -/
def reFindAtStart (re : RE) (s : String) (pos : Nat) : Option Nat :=
  (searchFrom re (arr s) pos).map (fun m => m.mstart)

open Rx in
/-- Models `RE.replace_all(s, "")` (used to strip ANSI escapes). -/
def reStripAll (re : RE) (s : String) : String :=
  let a := arr s
  let ms := findIter re a 0 (a.size + 1)
  let rec go (pos : Nat) : List Rx.MatchRes → String
    | [] => sliceStr a pos a.size
    | m :: rest => sliceStr a pos m.mstart ++ go (max m.mend (m.mstart + 1)) rest
  go 0 ms

open Rx in
/-- Models `RE.captures(s)`, distinguishing "no match" from "group `n` did
not participate" (used for `NEXTEST_SKIP_RE`'s nested `captures.get(2)`). -/
def reCaptureMatchG (re : RE) (s : String) (n : Nat) : Option (Option String) :=
  let a := arr s
  (searchFrom re a 0).map (fun m => capStr a m n)

/-- The integer range `[a, b)` as a list, modelling `for j in a..b`. -/
def rangeL (a b : Nat) : List Nat := (List.range (b - a)).map (fun k => a + k)

/-! ### `ParsedLog` and the three extraction strategies -/

/-- The three mutable status sets built during extraction (the
`passed`/`failed`/`ignored` `HashSet`s of the source), modelled as
duplicate-free lists in insertion order. -/
structure SetsT where
  passed : List String
  failed : List String
  ignored : List String
deriving Repr, DecidableEq

/-- Set insertion (`HashSet::insert`). -/
def insS (s : List String) (x : String) : List String :=
  if s.contains x then s else s ++ [x]

/-- Set union by repeated insertion (`all.extend(set.iter().cloned())`). -/
def unionS (a b : List String) : List String := b.foldl insS a

/-- Mirrors the source's `ParsedLog` struct: the three status sets plus
`all`, their union. -/
structure ParsedLog where
  passed : List String
  failed : List String
  ignored : List String
  all : List String
deriving Repr, DecidableEq

/-- The common tail of all three parse functions: build `all` by extending
an empty set with `passed`, `failed`, `ignored` in that order. -/
def mkParsedLog (st : SetsT) : ParsedLog :=
  { passed := st.passed, failed := st.failed, ignored := st.ignored,
    all := unionS (unionS (unionS [] st.passed) st.failed) st.ignored }

def addPassed (n : String) (st : SetsT) : SetsT := { st with passed := insS st.passed n }
def addFailed (n : String) (st : SetsT) : SetsT := { st with failed := insS st.failed n }
def addIgnored (n : String) (st : SetsT) : SetsT := { st with ignored := insS st.ignored n }

/-- The status-to-set dispatch repeated throughout the source
(`process_test_status` and the inline `match status.as_str()` arms):
`ok` → passed, `failed`/`error` → failed, `ignored` → ignored, anything
else ignored.  (The variants that first normalize `error` to `failed` and
then match are extensionally this same function.) -/
def insByStatus (status name : String) (st : SetsT) : SetsT :=
  if status = "ok" then addPassed name st
  else if status = "failed" || status = "error" then addFailed name st
  else if status = "ignored" then addIgnored name st
  else st

/-- `passed.contains(&n) || failed.contains(&n) || ignored.contains(&n)`. -/
def isClassified (st : SetsT) (n : String) : Bool :=
  st.passed.contains n || st.failed.contains n || st.ignored.contains n

/-! #### Standard strategy (the body of `parse_rust_log_file`) -/

/-- Pass 1: immediate `test NAME ... STATUS` lines
(`TEST_LINE_RE`, then `TEST_MIXED_FORMAT_RE`). -/
def pass1Line (st : SetsT) (line : String) : SetsT :=
  match reCapture2 Rx.TEST_LINE_RE line with
  | some (name, status) => insByStatus (toLowerStr status) name st
  | none =>
    match reCapture2 Rx.TEST_MIXED_FORMAT_RE line with
    | some (name, status) => insByStatus (toLowerStr status) name st
    | none => st

/-- `HashMap::insert` on the pending map (overwrite keeps one entry per key;
iteration order of the map does not affect the final sets, so insertion
order stands in for the hash order). -/
def pendInsert (p : List (String × Nat)) (k : String) (v : Nat) : List (String × Nat) :=
  if p.any (fun q => q.1 = k) then p.map (fun q => if q.1 = k then (k, v) else q)
  else p ++ [(k, v)]

/-- The `CORRUPTED_TEST_LINE_RE` half of the pending-collection loop body. -/
def corrPend (st : SetsT) (pend : List (String × Nat)) (i : Nat) (line : String) :
    List (String × Nat) :=
  match reCapture1 Rx.CORRUPTED_TEST_LINE_RE line with
  | some tn => if isClassified st tn then pend else pendInsert pend tn i
  | none => pend

/-- One line of the pending-collection loop.  When `TEST_START_RE` matches a
name that is already classified the source `continue`s, skipping the
corrupted-line check for that line. -/
def pendLine (st : SetsT) (pend : List (String × Nat)) (i : Nat) (line : String) :
    List (String × Nat) :=
  match reCapture2 Rx.TEST_START_RE line with
  | some (name, remainder) =>
    if isClassified st name then pend
    else
      let pend := if reIsMatch Rx.STATUS_RE remainder then pend else pendInsert pend name i
      corrPend st pend i line
  | none => corrPend st pend i line

/-- Pass 2 collection phase: the pending map of unresolved `test NAME ...`
starts. -/
def collectPending (st : SetsT) (lines : List String) : List (String × Nat) :=
  (indexed lines).foldl (fun pend il => pendLine st pend il.1 il.2) []

/-- Mirrors `is_diagnostic_error`. -/
def is_diagnostic_error (status line : String) : Bool :=
  if !(status = "error") then false
  else
    let ll := toLowerStr line
    containsStr ll "error:" || containsStr ll "panic" || containsStr ll "custom" ||
    containsStr ll "called `result::unwrap()" || containsStr ll "thread" ||
    containsStr ll "kind:"

/-- Mirrors `is_status_in_diagnostic_context`. -/
def is_status_in_diagnostic_context (status line : String) : Bool :=
  let ll := toLowerStr line
  match findSubPos ll status with
  | some pos =>
    let before_status := takeChars ll pos
    let after_status := dropChars ll (pos + status.length)
    containsStr before_status "error:" || containsStr before_status "panic" ||
    containsStr after_status "value:" || containsStr after_status "kind:"
  | none => false

/-- Mirrors `has_panic_evidence` (scan of `lines[search_start..search_end]`). -/
def has_panic_evidence (test_name : String) (lines : Array String)
    (search_start search_end : Nat) : Bool :=
  (rangeL search_start search_end).any (fun idx =>
    let sl := toLowerStr (lines.getD idx "")
    containsStr sl (threadNeedle test_name) && containsStr sl "panicked at")

/-- The `logging at`/`debug:`/`trace:`/`info:`/`warn:` marker test applied to
the lowercased line in the pending scans. -/
def hasLoggingMarker (line : String) : Bool :=
  let ll := toLowerStr line
  containsStr ll "logging at" || containsStr ll "debug:" || containsStr ll "trace:" ||
  containsStr ll "info:" || containsStr ll "warn:"

/-- Outcome of inspecting one line during a pending scan. -/
inductive ScanRes where
  | found (status : String)
  | next
  | stop
deriving Repr, DecidableEq

/-- One line of the pending-test result scan.  The initial (200-line) and
extended (10,000-line) windows of the source run this same body; they differ
only in the leeway of the other-test cutoff (5 vs 50 lines).  The
`continue` statements of the source map to `.next` (they skip the
other-test-line check). -/
def scanPendingLine (lines : Array String) (name : String) (startLine leeway j : Nat) :
    ScanRes :=
  let line := lines.getD j ""
  let stripped := trimStr line
  if eqIC stripped "ok" || eqIC stripped "FAILED" || eqIC stripped "ignored" ||
      eqIC stripped "error" then
    .found (toLowerStr stripped)
  else
    let statusMatch :=
      match reCapture1 Rx.STATUS_AT_END_RE line with
      | some c => some c
      | none => reCapture1 Rx.STATUS_AT_START_RE line
    match statusMatch with
    | some cap =>
      let status := toLowerStr cap
      if is_diagnostic_error status line then .next
      else if is_status_in_diagnostic_context status line then .next
      else if (status = "failed" || status = "error") && hasLoggingMarker line then
        let search_start := startLine - 100
        let search_end := min (j + 1) lines.size
        if has_panic_evidence name lines search_start search_end then .found status else .next
      else .found status
    | none =>
      if reIsMatch Rx.ANOTHER_TEST_RE line && decide (startLine + leeway < j) then .stop
      else .next

/-- Run a pending scan over a window of line indices. -/
def scanRange (lines : Array String) (name : String) (startLine leeway : Nat) :
    List Nat → Option String
  | [] => none
  | j :: rest =>
    match scanPendingLine lines name startLine leeway j with
    | .found s => some s
    | .stop => none
    | .next => scanRange lines name startLine leeway rest

/-- Pass 2 resolution phase for one pending test: initial 200-line window
with leeway 5, then the extended 10,000-line window with leeway 50. -/
def processPending (lines : Array String) (st : SetsT) (p : String × Nat) : SetsT :=
  let name := p.1
  let startLine := p.2
  let n := lines.size
  let initialEnd := min (startLine + 200) n
  match scanRange lines name startLine 5 (rangeL (startLine + 1) initialEnd) with
  | some s => insByStatus s name st
  | none =>
    match scanRange lines name startLine 50 (rangeL initialEnd (min (startLine + 10000) n)) with
    | some s => insByStatus s name st
    | none => st

/-- Pass 3 backward search: first `TEST_WITH_O_RE` line among the previous
ten lines wins (the source `break`s after the first match, inserted or not). -/
def lookBackO (lines : Array String) (st : SetsT) : List Nat → SetsT
  | [] => st
  | j :: rest =>
    match reCapture1 Rx.TEST_WITH_O_RE (lines.getD j "") with
    | some name => if !(isClassified st name) then addPassed name st else st
    | none => lookBackO lines st rest

/-- Pass 3: split `o` / `k` status repair. -/
def pass3Step (lines : Array String) (st : SetsT) (i : Nat) : SetsT :=
  let n := lines.size
  let line := lines.getD i ""
  let st :=
    if trimStr line = "o" ∧ i + 1 < n ∧ trimStr (lines.getD (i+1) "") = "k" then
      lookBackO lines st (((List.range i).reverse).take 10)
    else st
  match reCapture1 Rx.TEST_WITH_O_RE line with
  | some name =>
    if i + 1 < n ∧ trimStr (lines.getD (i+1) "") = "k" then
      if !(isClassified st name) then addPassed name st else st
    else st
  | none => st

/-- Pass 4 accumulation: up to 100 lines joined with newlines, stopping
after pushing a later test-start line once past a 5-line grace period. -/
def buildSearchTextGo (lines : Array String) (lineIdx : Nat) (js : List Nat) (acc : String) :
    String :=
  match js with
  | [] => acc
  | j :: rest =>
    let acc := acc ++ lines.getD j "" ++ "\n"
    if decide (lineIdx + 5 < j) && reIsMatch Rx.TEST_STARTS_RE (lines.getD j "") then acc
    else buildSearchTextGo lines lineIdx rest acc

def buildSearchText (lines : Array String) (lineIdx : Nat) : String :=
  buildSearchTextGo lines lineIdx (rangeL lineIdx (min (lineIdx + 100) lines.size)) ""

/-- Lowercased ±50-char context window around a match position (the
char-boundary fixup loop of the source is the identity in the byte model). -/
def ctxLower (stext : String) (mstart : Nat) : String :=
  let a := arr stext
  toLowerStr (Rx.sliceStr a (mstart - 50) (min (mstart + 50) a.size))

/-- The diagnostic-context needle list used by pass 4 and the single-line
window scan. -/
def ctxHasDiagNeedle (context : String) : Bool :=
  containsStr context "error:" || containsStr context "panic" ||
  containsStr context "custom" || containsStr context "called `result::unwrap()" ||
  containsStr context "thread" || containsStr context "kind:"

/-- All `(i, name)` test starts (`TEST_STARTS_RE` per line). -/
def testStarts (lines : List String) : List (Nat × String) :=
  (indexed lines).filterMap (fun il =>
    (reCapture1 Rx.TEST_STARTS_RE il.2).map (fun n => (il.1, n)))

/-- Pass 4 body for one unresolved test start. -/
def pass4One (lines : Array String) (st : SetsT) (p : Nat × String) : SetsT :=
  let lineIdx := p.1
  let name := p.2
  if isClassified st name then st
  else
    let stext := buildSearchText lines lineIdx
    let statusMatches := (reCapIter1Pos Rx.STATUS_IN_TEXT_RE stext).filterMap (fun q =>
      let status := toLowerStr q.1
      let context := ctxLower stext q.2
      if status = "error" && ctxHasDiagNeedle context then none else some (status, q.2))
    match statusMatches.getLast? with
    | some sm => insByStatus sm.1 name st
    | none => st

/-- Pass 5 (and nextest fallback) forward scan: standalone status words up
to 50 lines ahead, stopping at the next test line. -/
def pass5Scan (lines : Array String) : List Nat → Option String
  | [] => none
  | j :: rest =>
    if reIsMatch Rx.TEST_START_RE (lines.getD j "") then none
    else
      let sline := trimStr (lines.getD j "")
      if eqIC sline "ok" then some "ok"
      else if eqIC sline "failed" || eqIC sline "error" then some "failed"
      else if eqIC sline "ignored" then some "ignored"
      else pass5Scan lines rest

/-- Pass 5: diagnostic-prefixed test starts resolved by a later standalone
status word. -/
def pass5Step (lines : Array String) (st : SetsT) (i : Nat) : SetsT :=
  match reCapture2 Rx.TEST_START_RE (lines.getD i "") with
  | some (name, rem0) =>
    let remainder := trimStr rem0
    if isClassified st name then st
    else if sw remainder "error:" || remainder = "" then
      match pass5Scan lines (rangeL (i + 1) (min (i + 50) lines.size)) with
      | some s => insByStatus s name st
      | none => st
    else st
  | none => st

/-- One line of the `failures:` block scan at the end of the standard
strategy.  Matching the source: the banner re-arms collection; while
collecting, `error:`/`test result:` lines stop it, `FAILURES_BLOCK_RE`
captures are inserted (unless the captured name starts with `----`), blank
and `----` lines are skipped, and any other line stops collection. -/
def failuresStep : Bool × SetsT → String → Bool × SetsT
  | (collecting, st), line =>
    let trimmed := trimStr line
    if trimmed = "failures:" then (true, st)
    else if collecting then
      if sw trimmed "error:" || sw trimmed "test result:" then (false, st)
      else
        match reCapture1 Rx.FAILURES_BLOCK_RE line with
        | some test_name =>
          (true,
           if sw test_name "----" then st else { st with failed := insS st.failed test_name })
        | none =>
          if trimmed = "" || sw trimmed "----" then (true, st) else (false, st)
    else (collecting, st)

/-- The `failures:` block scan over all lines. -/
def failuresScan (lines : List String) (st : SetsT) : SetsT :=
  (lines.foldl failuresStep (false, st)).2

/-- The five passes plus the `failures:` block scan of the standard
strategy, producing the three status sets. -/
def standardSets (content : String) : SetsT :=
  let lines := rustLines content
  let la := lines.toArray
  let st : SetsT := ⟨[], [], []⟩
  let st := lines.foldl pass1Line st
  let st := (collectPending st lines).foldl (processPending la) st
  let st := (List.range la.size).foldl (pass3Step la) st
  let st := (testStarts lines).foldl (pass4One la) st
  let st := (List.range la.size).foldl (pass5Step la) st
  failuresScan lines st

/-- The standard (multi-line) strategy: the five passes plus the
`failures:` block scan, i.e. the body of `parse_rust_log_file` after format
dispatch. -/
def parseRustLogStandard (content : String) : ParsedLog :=
  mkParsedLog (standardSets content)

/-! #### Single-line (ANSI) strategy -/

/-- Mirrors `strip_ansi_color_codes`. -/
def strip_ansi_color_codes (s : String) : String := reStripAll Rx.ANSI_RE s

/-- Status matches inside a hard-case window (`STATUS_IN_TEXT_RE.find_iter`
with the error-context filter). -/
def slWindowStatuses (window : String) : List (String × Nat) :=
  (reFindWithPos Rx.STATUS_IN_TEXT_RE window).filterMap (fun q =>
    let status := toLowerStr q.1
    let context := ctxLower window q.2
    if status = "error" && ctxHasDiagNeedle context then none else some (status, q.2))

/-- Start-of-line status matches inside a hard-case window, with the
panic-evidence exception for statuses mixed into logging output. -/
def slLineStatuses (window name : String) : List (String × Nat) :=
  (rustLines window).filterMap (fun line =>
    match reCapture1 Rx.SINGLE_LINE_STATUS_AT_START_RE line with
    | some cap =>
      let status := toLowerStr cap
      if (status = "failed" || status = "error") && hasLoggingMarker line then
        let wl := toLowerStr window
        if containsStr wl (threadNeedle name) && containsStr wl "panicked at" then
          some (status, 0)
        else none
      else some (status, 0)
    | none => none)

/-- The hard-case loop body of `parse_rust_log_single_line`: window from the
end of this test start to the next test start (or 1000 chars), last valid
status match wins. -/
def slHardCase (clean : String) (st : SetsT) (p : String × Nat) : SetsT :=
  let name := p.1
  let searchPos := p.2
  if isClassified st name then st
  else
    let a := arr clean
    let endPos :=
      match reFindAtStart Rx.SINGLE_LINE_NEXT_TEST_RE clean searchPos with
      | some s => s
      | none => min (searchPos + 1000) a.size
    let window := Rx.sliceStr a searchPos endPos
    let ms := slWindowStatuses window ++ slLineStatuses window name
    match ms.getLast? with
    | some sm => insByStatus sm.1 name st
    | none => st

/-- The sub-pass cascade of `parse_rust_log_single_line`, producing the
three status sets. -/
def singleLineSets (text : String) : SetsT :=
  let clean := strip_ansi_color_codes text
  let st : SetsT := ⟨[], [], []⟩
  let st := (reCapIter2 Rx.ENH_TEST_RE_1 clean).foldl
    (fun st q => insByStatus (toLowerStr q.2) q.1 st) st
  let st := (reCapIter2 Rx.TEST_MIXED_FORMAT_RE clean).foldl
    (fun st q => insByStatus (toLowerStr q.2) q.1 st) st
  let st := (rustLines clean).foldl (fun st line =>
    match reCapture2 Rx.UI_TEST_PATH_RE line with
    | some q => insByStatus (toLowerStr q.2) q.1 st
    | none => st) st
  let st := (rustLines clean).foldl (fun st line =>
    match reCapture2 Rx.UI_TEST_PATH_SIMPLE_RE line with
    | some q => insByStatus (toLowerStr q.2) q.1 st
    | none => st) st
  (reCapIter1End Rx.SINGLE_LINE_START_RE clean).foldl (slHardCase clean) st

/-- Mirrors `parse_rust_log_single_line`. -/
def parse_rust_log_single_line (text : String) : ParsedLog :=
  mkParsedLog (singleLineSets text)

/-! #### Nextest strategy -/

/-- Mirrors `extract_test_name_from_nextest_line`. -/
def extract_test_name_from_nextest_line (full_line : String) : String :=
  let trimmed := trimStr full_line
  if sw trimmed "miden-" then trimmed
  else if containsStr trimmed "::miden-integration-tests " then trimmed
  else if containsStr trimmed "::lib " then
    match findSubPos trimmed "::lib " with
    | some lib_pos => trimStr (dropChars trimmed (lib_pos + 6))
    | none => trimmed
  else
    match findCharPos trimmed ' ' with
    | some space_pos =>
      let crate_part := takeChars trimmed space_pos
      let test_part := dropChars trimmed (space_pos + 1)
      if !(containsStr crate_part "::") && containsStr test_part "::" then trimStr test_part
      else trimmed
    | none => trimmed

/-- One line of `parse_nextest_log` (the `continue`-chained pattern
cascade). -/
def nextestLine (lines : Array String) (st : SetsT) (i : Nat) : SetsT :=
  let line := lines.getD i ""
  match reCapture1 Rx.NEXTEST_PASS_RE line with
  | some fm => addPassed (extract_test_name_from_nextest_line (trimStr fm)) st
  | none =>
  match reCapture1 Rx.NEXTEST_FAIL_RE line with
  | some fm => addFailed (extract_test_name_from_nextest_line (trimStr fm)) st
  | none =>
  match reCaptureMatchG Rx.NEXTEST_SKIP_RE line 2 with
  | some g2 =>
    match g2 with
    | some fm => addIgnored (extract_test_name_from_nextest_line (trimStr fm)) st
    | none => st
  | none =>
  match reCapture2 Rx.TEST_LINE_RE line with
  | some q => insByStatus (toLowerStr q.2) q.1 st
  | none =>
  match reCapture2 Rx.TEST_MIXED_FORMAT_RE line with
  | some q => insByStatus (toLowerStr q.2) q.1 st
  | none =>
  match reCapture2 Rx.ENH_TEST_RE_1 line with
  | some q => insByStatus (toLowerStr q.2) q.1 st
  | none =>
  match reCapture2 Rx.TEST_START_RE line with
  | some (test_name, rem0) =>
    let remainder := trimStr rem0
    if isClassified st test_name then st
    else if sw remainder "error:" || remainder = "" then
      match pass5Scan lines (rangeL (i + 1) (min (i + 50) lines.size)) with
      | some s => insByStatus s test_name st
      | none => st
    else st
  | none => st

/-- The per-line cascade of `parse_nextest_log`, producing the three status
sets. -/
def nextestSets (text : String) : SetsT :=
  let lines := rustLines text
  let la := lines.toArray
  (List.range la.size).foldl (nextestLine la) ⟨[], [], []⟩

/-- Mirrors `parse_nextest_log`. -/
def parse_nextest_log (text : String) : ParsedLog :=
  mkParsedLog (nextestSets text)

/-! #### Format classification and dispatch -/

/-- Mirrors `looks_single_line_like`. -/
def looks_single_line_like (text : String) : Bool :=
  let line_count := (rustLines text).length
  let has_ansi := reIsMatch Rx.ANSI_RE text
  let test_count := reFindCount Rx.SIMPLE_PATTERN_RE text
  let ui_test_count := ((rustLines text).filter (fun line =>
    reIsMatch Rx.UI_TEST_PATH_RE line || reIsMatch Rx.UI_TEST_PATH_SIMPLE_RE line)).length
  let has_ui_tests := decide (10 < ui_test_count)
  (decide (line_count ≤ 3) && decide (5 < test_count)) || has_ansi || has_ui_tests

/-- The nextest marker strings of `looks_nextest_format`. -/
def nextestIndicators : List String :=
  ["Nextest run ID", "nextest run", "Starting tests across", "PASS [", "FAIL [",
   "START             "]

/-- Mirrors `looks_nextest_format`. -/
def looks_nextest_format (text : String) : Bool :=
  let has_indicators := nextestIndicators.any (fun indicator =>
    containsStr (toLowerStr text) (toLowerStr indicator))
  let nextest_lines := reFindCount Rx.NEXTEST_PASS_RE text +
    reFindCount Rx.NEXTEST_FAIL_RE text + reFindCount Rx.NEXTEST_SKIP_RE text
  let has_mixed_format := containsStr text "PASS [" && containsStr text "test " &&
    containsStr text "... ok"
  let has_nextest_command := containsStr text "cargo nextest run"
  has_indicators || decide (5 < nextest_lines) || has_mixed_format || has_nextest_command

/-- The extraction strategy chosen for a log text. -/
inductive LogFormat where
  | nextest
  | singleLineAnsi
  | standard
deriving Repr, DecidableEq

/-- The dispatch order at the top of `parse_rust_log_file`: nextest first,
then single-line/ANSI, else standard. -/
def classifyFormat (content : String) : LogFormat :=
  if looks_nextest_format content then .nextest
  else if looks_single_line_like content then .singleLineAnsi
  else .standard

/-- `parse_rust_log_file` on in-memory content (the file read split off). -/
def parseRustLogContent (content : String) : ParsedLog :=
  match classifyFormat content with
  | .nextest => parse_nextest_log content
  | .singleLineAnsi => parse_rust_log_single_line content
  | .standard => parseRustLogStandard content

/-- Mirrors `parse_rust_log_file`; the file system is a partial map from
paths to contents. -/
def parse_rust_log_file (fs : String → Option String) (file_path : String) :
    Except String ParsedLog :=
  match fs file_path with
  | none => .error ("Failed to read log file " ++ file_path)
  | some content => .ok (parseRustLogContent content)

/-! ### Generic string-keyed map model (for the source's `HashMap`s whose
iteration order does not affect observable results) -/

/-- `HashMap::insert` (overwrite keeps the key's first position). -/
def mapInsert {β : Type} (m : List (String × β)) (k : String) (v : β) : List (String × β) :=
  if m.any (fun q => q.1 = k) then m.map (fun q => if q.1 = k then (k, v) else q)
  else m ++ [(k, v)]

/-- `HashMap::get`. -/
def mapGet {β : Type} (m : List (String × β)) (k : String) : Option β :=
  (m.find? (fun q => q.1 = k)).map (fun q => q.2)

/-- Append `v` to the group keyed `k` (the `entry(..).or_default().push(..)`
idiom). -/
def addToGroup {α : Type} (gs : List (String × List α)) (k : String) (v : α) :
    List (String × List α) :=
  if gs.any (fun g => g.1 = k) then gs.map (fun g => if g.1 = k then (g.1, g.2 ++ [v]) else g)
  else gs ++ [(k, [v])]

/-- Models Rust `str::ends_with`. -/
def ews (s suf : String) : Bool := isPrefixL suf.toList.reverse s.toList.reverse

/-! ### Duplicate Analyzer (`detect_same_file_duplicates` and friends) -/

/-- Mirrors `detect_file_boundary`. -/
def detect_file_boundary (line : String) : Option String :=
  match reCapture1 Rx.FILE_BOUNDARY_RE_1 line with
  | some c => some c
  | none =>
  match reCapture1 Rx.FILE_BOUNDARY_RE_2 line with
  | some c => some c
  | none => reCapture1 Rx.FILE_BOUNDARY_RE_3 line

/-- Mirrors `extract_test_info_enhanced` (trimmed name/status from the first
matching pattern). -/
def extract_test_info_enhanced (line : String) : Option (String × String) :=
  match reCapture2 Rx.ENH_TEST_RE_1 line with
  | some q => some (trimStr q.1, trimStr q.2)
  | none =>
  match reCapture2 Rx.ENH_TEST_RE_2 line with
  | some q => some (trimStr q.1, trimStr q.2)
  | none =>
  match reCapture2 Rx.UI_TEST_PATH_RE line with
  | some q => some (trimStr q.1, trimStr q.2)
  | none =>
  match reCapture2 Rx.UI_TEST_PATH_SIMPLE_RE line with
  | some q => some (trimStr q.1, trimStr q.2)
  | none => none

/-- Mirrors the `Occur` struct. -/
structure Occur where
  test_name : String
  status : String
  line_no : Nat
  context_before : List String
  context_after : List String
deriving Repr, DecidableEq

instance : Inhabited Occur := ⟨⟨"", "", 0, [], []⟩⟩

/-- The two-line context windows around occurrence `i`. -/
def occContexts (lines : Array String) (i : Nat) : List String × List String :=
  let n := lines.size
  let before := if 2 ≤ i then (rangeL (i - 2) i).map (fun j => lines.getD j "") else []
  let after := if i + 1 < n then (rangeL (i + 1) (min n (i + 3))).map (fun j => lines.getD j "")
    else []
  (before, after)

/-- The occurrence-collection loop of `detect_same_file_duplicates`:
file-boundary lines update `current_file` (and are not themselves scanned
for tests); every extracted occurrence is attributed to the current file. -/
def collectOccurs (lines : Array String) : List (String × Occur) :=
  let step := fun (acc : String × List (String × Occur)) (il : Nat × String) =>
    match detect_file_boundary il.2 with
    | some f => (f, acc.2)
    | none =>
      match extract_test_info_enhanced il.2 with
      | some q =>
        let ctx := occContexts lines il.1
        (acc.1, acc.2 ++ [(acc.1, ⟨q.1, q.2, il.1, ctx.1, ctx.2⟩)])
      | none => acc
  ((indexed lines.toList).foldl step ("unknown", [])).2

/-- `usize::MAX`, the initial value of the minimum-distance fold. -/
def usizeMax : Nat := 2 ^ 64 - 1

/-- `for i in 1..len { min_dist = min(min_dist, lines[i] - lines[i-1]) }`
as a fold over consecutive pairs. -/
def minConsecDiff : List Nat → Nat → Nat
  | a :: b :: t, acc => minConsecDiff (b :: t) (min acc (b - a))
  | _, acc => acc

/-- Ascending sort on `Nat`, modelling `sort_unstable` (only the resulting
sorted order matters). -/
def sortNat (l : List Nat) : List Nat := l.insertionSort (· ≤ ·)

/-- The concatenated before/after context of one occurrence
(`join(" ")` of each window, concatenated, then trimmed). -/
def ctxConcat (o : Occur) : String :=
  trimStr (joinSep " " o.context_before ++ joinSep " " o.context_after)

/-- Mirrors `is_true_duplicate`. -/
def is_true_duplicate (occ : List Occur) : Bool :=
  if occ.length ≤ 1 then false
  else
    let sorted := sortNat (occ.map (fun o => o.line_no))
    let min_dist := minConsecDiff sorted usizeMax
    if min_dist < 10 then true
    else
      let has_fail := occ.any (fun o =>
        let s := toLowerStr o.status
        s = "failed" || s = "error")
      let has_ok := occ.any (fun o => toLowerStr o.status = "ok")
      if has_fail && has_ok then true
      else
        let contexts := occ.map ctxConcat
        !contexts.isEmpty && contexts.all (fun c => !(c = "") && c = contexts.headI)

/-- Mirrors `detect_same_file_duplicates`. -/
def detect_same_file_duplicates (raw_content : String) : List String :=
  if raw_content = "" then []
  else
    let lines := (splitChar '\n' raw_content).toArray
    let per_file := (collectOccurs lines).foldl (fun gs p => addToGroup gs p.1 p.2) []
    per_file.foldl (fun out fg =>
      let by_name := fg.2.foldl (fun gs o => addToGroup gs o.test_name o) []
      by_name.foldl (fun out ng =>
        if decide (1 < ng.2.length) && is_true_duplicate ng.2 then
          let places := ng.2.map (fun o => "line " ++ toString o.line_no)
          out ++ [ng.1 ++ " (appears " ++ toString places.length ++ " times in " ++ fg.1 ++
                  ": " ++ joinSep ", " places ++ ")"]
        else out) out) []

/-! ### Universe Resolver (`status_lookup`) -/

/-- The status decision of `status_lookup` for one name:
failed, else passed, else ignored, else missing. -/
def statusOf (parsed : ParsedLog) (name : String) : String :=
  if parsed.failed.contains name then "failed"
  else if parsed.passed.contains name then "passed"
  else if parsed.ignored.contains name then "ignored"
  else "missing"

/-- Mirrors `status_lookup`: build the per-name status map
(the debug printing of partial matches has no observable effect). -/
def status_lookup (names : List String) (parsed : ParsedLog) : List (String × String) :=
  names.foldl (fun out name => mapInsert out name (statusOf parsed name)) []

/-! ### JSON model (for `serde_json::Value` report data) -/

/-- Minimal model of `serde_json::Value`; object fields keep the map's
iteration order. -/
inductive Json where
  | null
  | bool (b : Bool)
  | num (n : Int)
  | str (s : String)
  | arr (elems : List Json)
  | obj (fields : List (String × Json))

/-- `Value::get(key)`. -/
def Json.get? : Json → String → Option Json
  | .obj fs, k => (fs.find? (fun f => f.1 = k)).map (fun f => f.2)
  | _, _ => none

/-- `Value::as_array()`. -/
def Json.asArray? : Json → Option (List Json)
  | .arr xs => some xs
  | _ => none

/-- `Value::as_str()`. -/
def Json.asStr? : Json → Option String
  | .str s => some s
  | _ => none

/-- `Value::as_object()`. -/
def Json.asObj? : Json → Option (List (String × Json))
  | .obj fs => some fs
  | _ => none

/-- Shared helper of `report_status_lookup` and the C6 check: classify one
status string into the failed / passed accumulator pair. -/
def reportAccum (fp : List String × List String) (test_name status : String)
    (collectPassed : Bool) : List String × List String :=
  let s := toLowerStr status
  if s = "failed" || s = "fail" then (insS fp.1 test_name, fp.2)
  else if collectPassed && (s = "passed" || s = "pass" || s = "success") then
    (fp.1, insS fp.2 test_name)
  else fp

/-- The report-shape dispatch shared by `report_status_lookup` (which
collects failed and passed sets) and the inline C6 parsing (failed only,
`collectPassed = false`): `results` array, `test_results` array,
`tests` object, SWE-bench `tests_status` shape, else direct mapping. -/
def reportSets (report_data : Json) (collectPassed : Bool) : List String × List String :=
  match (report_data.get? "results").bind Json.asArray? with
  | some results_array =>
    results_array.foldl (fun fp result =>
      match (result.get? "test_name").bind Json.asStr?,
            (result.get? "status").bind Json.asStr? with
      | some test_name, some status => reportAccum fp test_name status collectPassed
      | _, _ => fp) ([], [])
  | none =>
  match (report_data.get? "test_results").bind Json.asArray? with
  | some test_results =>
    test_results.foldl (fun fp result =>
      match (result.get? "test_name").bind Json.asStr?,
            (result.get? "status").bind Json.asStr? with
      | some test_name, some status => reportAccum fp test_name status collectPassed
      | _, _ => fp) ([], [])
  | none =>
  match (report_data.get? "tests").bind Json.asObj? with
  | some tests_obj =>
    tests_obj.foldl (fun fp f =>
      match (f.2.get? "status").bind Json.asStr? with
      | some status => reportAccum fp f.1 status collectPassed
      | none => fp) ([], [])
  | none =>
  match report_data.asObj? with
  | some obj =>
    match obj.find? (fun f => ((f.2.get? "tests_status").bind Json.asObj?).isSome) with
    | some f =>
      let tests_status := ((f.2.get? "tests_status").bind Json.asObj?).getD []
      tests_status.foldl (fun fp cat =>
        match cat.2.asObj? with
        | some category_obj =>
          let fp :=
            match (mapGet category_obj "failure").bind Json.asArray? with
            | some failure_array =>
              failure_array.foldl (fun fp item =>
                match item.asStr? with
                | some test_name => (insS fp.1 test_name, fp.2)
                | none => fp) fp
            | none => fp
          if collectPassed then
            match (mapGet category_obj "success").bind Json.asArray? with
            | some success_array =>
              success_array.foldl (fun fp item =>
                match item.asStr? with
                | some test_name => (fp.1, insS fp.2 test_name)
                | none => fp) fp
            | none => fp
          else fp
        | none => fp) ([], [])
    | none =>
      obj.foldl (fun fp f =>
        match f.2.asStr? with
        | some status => reportAccum fp f.1 status collectPassed
        | none => fp) ([], [])
  | none => ([], [])

/-- Mirrors `report_status_lookup`. -/
def report_status_lookup (names : List String) (report_data : Json) :
    List (String × String) :=
  let fp := reportSets report_data true
  names.foldl (fun out name =>
    if fp.1.contains name then mapInsert out name "failed"
    else if fp.2.contains name then mapInsert out name "passed"
    else mapInsert out name "missing") []

/-! ### Rule Engine and Report Assembler (`generate_analysis_result`) -/

/-- One rule outcome: `has_problem` plus example strings. -/
structure RuleOutcome where
  has_problem : Bool
  examples : List String
deriving Repr, DecidableEq

/-- Per-stage extraction counts (`debug_log_counts` entries). -/
structure StageCounts where
  label : String
  passedN : Nat
  failedN : Nat
  ignoredN : Nat
  allN : Nat
deriving Repr, DecidableEq

/-- C1 example list: P2P tests `failed` in base. -/
def c1Hits (base_s : List (String × String)) (pass_to_pass : List String) : List String :=
  pass_to_pass.filter (fun t => mapGet base_s t == some "failed")

/-- C2 example list: universe tests `failed` in after. -/
def c2Hits (after_s : List (String × String)) (univList : List String) : List String :=
  univList.filter (fun t => mapGet after_s t == some "failed")

/-- C3 example list: F2P tests `passed` in before. -/
def c3Hits (before_s : List (String × String)) (fail_to_pass : List String) : List String :=
  fail_to_pass.filter (fun t => mapGet before_s t == some "passed")

/-- The C4 loop body: skip a P2P test `passed` in base; for one `missing`
in base, push a violation string unless it is `passed` in before. -/
def c4Step (base_s before_s : List (String × String)) (hits : List String) (t : String) :
    List String :=
  let b := (mapGet base_s t).getD "missing"
  let be := (mapGet before_s t).getD "missing"
  if b = "passed" then hits
  else if b = "missing" then
    if !(be = "passed") then hits ++ [t ++ " (missing in base, " ++ be ++ " in before)"]
    else hits
  else hits

/-- C4 example list (the `for t in pass_to_pass` loop). -/
def c4Hits (base_s before_s : List (String × String)) (pass_to_pass : List String) :
    List String :=
  pass_to_pass.foldl (c4Step base_s before_s) []

/-- The C7 `#[test]`-attribute search in the normalized test-diff text. -/
def c7TestAttr (normalized nm : String) : Bool :=
  let lines := (rustLines normalized).toArray
  (rangeL 0 (lines.size - 1)).any (fun i =>
    trimStr (lines.getD i "") = "#[test]" &&
    (rangeL (i + 1) (min (i + 4) lines.size)).any (fun j =>
      let line := trimStr (lines.getD j "")
      sw line ("fn " ++ nm ++ "(") || sw line ("fn " ++ nm ++ " (")))

/-- The C7 check: F2P test keys appearing textually in a golden-source diff
but not defined as a test function inside a test diff. -/
def c7Check (fs : String → Option String) (fail_to_pass : List String)
    (file_paths : List String) : List String :=
  let diff_files := file_paths.filter (fun path =>
    let pl := toLowerStr path
    containsStr pl "patches/" && (ews pl ".diff" || ews pl ".patch"))
  if diff_files.isEmpty then []
  else
    let part := diff_files.partition (fun path =>
      let filename := toLowerStr ((splitChar '/' path).getLastD "")
      (containsStr filename "gold" || containsStr filename "src" ||
       containsStr filename "source") && !containsStr filename "test")
    let golden_source_diffs := part.1
    let test_diffs := part.2
    let test_diff_contents := test_diffs.foldl (fun acc td =>
      match fs td with
      | some content => acc ++ content ++ "\n"
      | none => acc) ""
    golden_source_diffs.foldl (fun hits golden_diff =>
      match fs golden_diff with
      | some diff_content =>
        fail_to_pass.foldl (fun hits f2p_test =>
          let test_name_to_search :=
            if containsStr f2p_test "::" then (splitSub f2p_test "::").getLastD f2p_test
            else f2p_test
          if containsStr diff_content test_name_to_search then
            let found_exact :=
              if !(test_diff_contents = "") then
                let normalized := replaceSub (replaceSub test_diff_contents "\r\n" "\n") "\r" "\n"
                let found_direct_fn :=
                  containsStr normalized ("fn " ++ test_name_to_search ++ "(") ||
                  containsStr normalized ("fn " ++ test_name_to_search ++ " (")
                found_direct_fn || c7TestAttr normalized test_name_to_search
              else false
            if found_exact then hits
            else
              hits ++ [f2p_test ++ " (found as " ++ String.singleton aposC ++
                       test_name_to_search ++ String.singleton aposC ++ " in " ++
                       (splitChar '/' golden_diff).getLastD golden_diff ++
                       " but not as actual test function in test diffs)"]
          else hits) hits
      | none => hits) []

/-- The C6 example list: report-vs-agent status mismatches over the
universe. -/
def c6HitsList (univList : List String) (report_failed : List String)
    (report_s agent_s : List (String × String)) : List String :=
  univList.foldl (fun hits test_name =>
    let report_status :=
      if report_failed.contains test_name then "failed"
      else if mapGet report_s test_name == some "passed" then "passed"
      else "missing"
    let agent_status := (mapGet agent_s test_name).getD "missing"
    if !(report_status = "missing") && !(agent_status = "missing") &&
        !(report_status = agent_status) then
      if report_status = "failed" && agent_status = "passed" then
        hits ++ [test_name ++ " (marked as failed in report.json but passing in agent log)"]
      else if report_status = "passed" && agent_status = "failed" then
        hits ++ [test_name ++ " (marked as passed in report.json but failing in agent log)"]
      else hits
    else hits) []

/-- Acceptance: P2P tests ignored because `passed` in both base and after. -/
def p2pIgnoredL (base_s after_s : List (String × String)) (pass_to_pass : List String) :
    List String :=
  pass_to_pass.filter (fun t =>
    (mapGet base_s t == some "passed") && (mapGet after_s t == some "passed"))

/-- Acceptance: the remaining (considered) P2P tests. -/
def p2pConsideredL (base_s after_s : List (String × String)) (pass_to_pass : List String) :
    List String :=
  pass_to_pass.filter (fun t =>
    !((mapGet base_s t == some "passed") && (mapGet after_s t == some "passed")))

/-- Acceptance: considered P2P tests `missing` in base and not `passed` in
before. -/
def p2pRejectedL (base_s before_s after_s : List (String × String))
    (pass_to_pass : List String) : List String :=
  (p2pConsideredL base_s after_s pass_to_pass).filter (fun t =>
    (mapGet base_s t == some "missing") && !(mapGet before_s t == some "passed"))

/-- Acceptance: considered P2P tests `missing` in base and `passed` in
before. -/
def p2pOkL (base_s before_s after_s : List (String × String))
    (pass_to_pass : List String) : List String :=
  (p2pConsideredL base_s after_s pass_to_pass).filter (fun t =>
    (mapGet base_s t == some "missing") && (mapGet before_s t == some "passed"))

/-- The assembled analysis object (the `serde_json::json!` tree of
`generate_analysis_result`, as a structure). -/
structure AnalysisReport where
  base_log : String
  before_log : String
  after_log : String
  agent_log : String
  counts_P2P : Nat
  counts_F2P : Nat
  c1 : RuleOutcome
  c2 : RuleOutcome
  c3 : RuleOutcome
  c4 : RuleOutcome
  c5_has_problem : Bool
  c5_dups : List (String × List String)
  c6 : RuleOutcome
  c7 : RuleOutcome
  rejection_satisfied : Bool
  p2p_ignored : List String
  p2p_considered : List String
  p2p_rejected : List String
  p2p_ok : List String
  f2p_ignored : List String
  f2p_considered : List String
  f2p_rejected : List String
  f2p_ok : List String
  p2p_analysis : List (String × List (String × String))
  f2p_analysis : List (String × List (String × String))
  debug_log_counts : List StageCounts

/-- Mirrors `generate_analysis_result`. -/
def generate_analysis_result
    (fs : String → Option String)
    (base_parsed before_parsed after_parsed : ParsedLog)
    (agent_parsed : Option ParsedLog)
    (pass_to_pass fail_to_pass : List String)
    (base_path before_path after_path : String)
    (agent_path : Option String)
    (report_data : Option Json)
    (file_paths : List String) : AnalysisReport :=
  let univList := pass_to_pass ++ fail_to_pass
  let base_s := status_lookup univList base_parsed
  let before_s := status_lookup univList before_parsed
  let after_s := status_lookup univList after_parsed
  let agent_s :=
    match agent_parsed with
    | some ap => status_lookup univList ap
    | none => []
  let report_s :=
    match report_data with
    | some rd => report_status_lookup univList rd
    | none => []
  let c1_hits := c1Hits base_s pass_to_pass
  let c2_hits := c2Hits after_s univList
  let c3_hits := c3Hits before_s fail_to_pass
  let c4_hits := c4Hits base_s before_s pass_to_pass
  let base_txt := (fs base_path).getD ""
  let before_txt := (fs before_path).getD ""
  let after_txt := (fs after_path).getD ""
  let base_dups := detect_same_file_duplicates base_txt
  let before_dups := detect_same_file_duplicates before_txt
  let after_dups := detect_same_file_duplicates after_txt
  let dup_map : List (String × List String) :=
    (if !base_dups.isEmpty then [("base", base_dups.take 50)] else []) ++
    (if !before_dups.isEmpty then [("before", before_dups.take 50)] else []) ++
    (if !after_dups.isEmpty then [("after", after_dups.take 50)] else [])
  let c5 := !dup_map.isEmpty
  let c7_hits := c7Check fs fail_to_pass file_paths
  let c7 := !c7_hits.isEmpty
  let c6_hits :=
    match agent_parsed, report_data with
    | some _, some rd => c6HitsList univList (reportSets rd false).1 report_s agent_s
    | _, _ => []
  let c6 :=
    match agent_parsed, report_data with
    | some _, some _ => !c6_hits.isEmpty
    | _, _ => false
  let p2p_ignored := p2pIgnoredL base_s after_s pass_to_pass
  let p2p_considered := p2pConsideredL base_s after_s pass_to_pass
  let p2p_rejected := p2pRejectedL base_s before_s after_s pass_to_pass
  let p2p_ok := p2pOkL base_s before_s after_s pass_to_pass
  let f2p_ignored := fail_to_pass.filter (fun t => mapGet after_s t == some "passed")
  let f2p_considered := fail_to_pass.filter (fun t => !(mapGet after_s t == some "passed"))
  let f2p_rejected := fail_to_pass.filter (fun t => mapGet after_s t == some "failed")
  let f2p_ok := fail_to_pass.filter (fun t => mapGet after_s t == some "missing")
  let rejection_satisfied := !p2p_rejected.isEmpty
  let mkRow := fun (t : String) =>
    [("base", (mapGet base_s t).getD "missing"),
     ("before", (mapGet before_s t).getD "missing"),
     ("after", (mapGet after_s t).getD "missing"),
     ("agent", (mapGet agent_s t).getD "missing"),
     ("report", (mapGet report_s t).getD "missing")]
  let p2p_analysis := pass_to_pass.foldl (fun m t => mapInsert m t (mkRow t)) []
  let f2p_analysis := fail_to_pass.foldl (fun m t => mapInsert m t (mkRow t)) []
  let debug_log_counts :=
    [⟨"base", base_parsed.passed.length, base_parsed.failed.length,
      base_parsed.ignored.length, base_parsed.all.length⟩,
     ⟨"before", before_parsed.passed.length, before_parsed.failed.length,
      before_parsed.ignored.length, before_parsed.all.length⟩,
     ⟨"after", after_parsed.passed.length, after_parsed.failed.length,
      after_parsed.ignored.length, after_parsed.all.length⟩] ++
    (match agent_parsed with
     | some ap => [(⟨"agent", ap.passed.length, ap.failed.length, ap.ignored.length,
                    ap.all.length⟩ : StageCounts)]
     | none => [])
  { base_log := base_path, before_log := before_path, after_log := after_path,
    agent_log := agent_path.getD "",
    counts_P2P := pass_to_pass.length, counts_F2P := fail_to_pass.length,
    c1 := ⟨!c1_hits.isEmpty, c1_hits⟩,
    c2 := ⟨!c2_hits.isEmpty, c2_hits⟩,
    c3 := ⟨!c3_hits.isEmpty, c3_hits⟩,
    c4 := ⟨!c4_hits.isEmpty, c4_hits⟩,
    c5_has_problem := c5, c5_dups := dup_map,
    c6 := ⟨c6, c6_hits⟩,
    c7 := ⟨c7, c7_hits⟩,
    rejection_satisfied := rejection_satisfied,
    p2p_ignored := p2p_ignored, p2p_considered := p2p_considered,
    p2p_rejected := p2p_rejected, p2p_ok := p2p_ok,
    f2p_ignored := f2p_ignored, f2p_considered := f2p_considered,
    f2p_rejected := f2p_rejected, f2p_ok := f2p_ok,
    p2p_analysis := p2p_analysis, f2p_analysis := f2p_analysis,
    debug_log_counts := debug_log_counts }

/-! ### `analyze_logs` -/

/-- `file_paths.iter().find(|p| p.to_lowercase().contains(needle))`. -/
def findPathContaining (file_paths : List String) (needle : String) : Option String :=
  file_paths.find? (fun p => containsStr (toLowerStr p) needle)

/-- The main.json search (`main.json` or `main/` in the lowercased path). -/
def findMainJson (file_paths : List String) : Option String :=
  file_paths.find? (fun p =>
    containsStr (toLowerStr p) "main.json" || containsStr (toLowerStr p) "main/")

/-- The agent-log search. -/
def findAgentLog (file_paths : List String) : Option String :=
  file_paths.find? (fun p =>
    containsStr (toLowerStr p) "post_agent_patch.log" || containsStr (toLowerStr p) "agent.log")

/-- The report.json search. -/
def findReportJson (file_paths : List String) : Option String :=
  file_paths.find? (fun p =>
    containsStr (toLowerStr p) "results/report.json" || ews (toLowerStr p) "report.json")

/-- String-array field extraction from main.json
(`get(..).and_then(as_array).unwrap_or(empty).filter_map(as_str)`). -/
def strListField (j : Json) (key : String) : List String :=
  ((j.get? key).bind Json.asArray?).getD [] |>.filterMap Json.asStr?

/-- The optional report.json data of `analyze_logs`: a missing path, an
unreadable file, or unparsable JSON all yield `none` (the analysis
proceeds without it). -/
def reportDataOf (parseJson : String → Option Json) (fs : String → Option String)
    (file_paths : List String) : Option Json :=
  match findReportJson file_paths with
  | some rp =>
    (match fs rp with
     | some content => parseJson content
     | none => none)
  | none => none

/-- Mirrors `analyze_logs`.  `parseJson` stands for `serde_json::from_str`
(an external library function), `fs` for `fs::read_to_string`. -/
def analyze_logs (parseJson : String → Option Json) (fs : String → Option String)
    (file_paths : List String) : Except String AnalysisReport :=
  match findMainJson file_paths with
  | none => .error "main.json file not found in provided paths"
  | some main_json_path =>
  match fs main_json_path with
  | none => .error "Failed to read main.json"
  | some main_json_content =>
  match parseJson main_json_content with
  | none => .error "Failed to parse main.json"
  | some main_json =>
  let fail_to_pass := strListField main_json "fail_to_pass"
  let pass_to_pass := strListField main_json "pass_to_pass"
  let base_log := findPathContaining file_paths "base.log"
  let before_log := findPathContaining file_paths "before.log"
  let after_log := findPathContaining file_paths "after.log"
  let agent_log := findAgentLog file_paths
  match base_log, before_log, after_log with
  | some bp, some befp, some ap =>
    (match parse_rust_log_file fs bp with
     | .error e => .error e
     | .ok base_parsed =>
     match parse_rust_log_file fs befp with
     | .error e => .error e
     | .ok before_parsed =>
     match parse_rust_log_file fs ap with
     | .error e => .error e
     | .ok after_parsed =>
     match (match agent_log with
            | some agp =>
              (match parse_rust_log_file fs agp with
               | .error e => Except.error e
               | .ok p => Except.ok (some p))
            | none => (Except.ok none : Except String (Option ParsedLog))) with
     | .error e => .error e
     | .ok agent_parsed =>
       let report_data := reportDataOf parseJson fs file_paths
       .ok (generate_analysis_result fs base_parsed before_parsed after_parsed agent_parsed
             pass_to_pass fail_to_pass bp befp ap agent_log report_data file_paths))
  | _, _, _ => .error "Missing required log files (base.log, before.log, after.log)"

/-! ### LLM chunk-result merge (`merge_chunk_results`) and log chunking -/

/-- Mirrors the `TestStatus` struct (`ty` stands for the raw field
`r#type`). -/
structure TestStatus where
  test_name : String
  status : String
  ty : String
deriving Repr, DecidableEq

/-- The conflict-resolution `match` of `merge_chunk_results`:
`failed` vs `passed` → `failed`; a `non_existing` side yields the other
side; identical repeats keep the value; anything else takes the new
status. -/
def resolveChunkStatus (existing status : String) : String :=
  if (existing = "failed" && status = "passed") || (existing = "passed" && status = "failed")
  then "failed"
  else if existing = "non_existing" then status
  else if status = "non_existing" then existing
  else if existing = status then existing
  else status

/-- One `(test_name, status)` chunk entry folded into the status map. -/
def mergeMapStep (m : List (String × String)) (ts : String × String) :
    List (String × String) :=
  match mapGet m ts.1 with
  | some existing => mapInsert m ts.1 (resolveChunkStatus existing ts.2)
  | none => mapInsert m ts.1 ts.2

/-- Insertion sort by `test_name`, modelling the final
`sort_by(|a, b| a.test_name.cmp(&b.test_name))`. -/
def insertTS (x : TestStatus) : List TestStatus → List TestStatus
  | [] => [x]
  | y :: ys =>
    if x.test_name < y.test_name ∨ x.test_name = y.test_name then x :: y :: ys
    else y :: insertTS x ys

def sortTS (l : List TestStatus) : List TestStatus := l.foldr insertTS []

/-- Mirrors `merge_chunk_results` (chunk entries are `(test_name, status)`
pairs, `all_tests` entries are `(test_type, test_name)` pairs). -/
def merge_chunk_results (chunk_results : List (List (String × String)))
    (all_tests : List (String × String)) : List TestStatus :=
  let test_status_map := chunk_results.foldl (fun m chunk => chunk.foldl mergeMapStep m) []
  let test_type_map := all_tests.foldl (fun tm p => mapInsert tm p.2 p.1) []
  let final_results := test_status_map.map (fun p =>
    TestStatus.mk p.1 p.2 ((mapGet test_type_map p.1).getD "unknown"))
  sortTS final_results

/-- The merged status assigned to one test name. -/
def mergedStatusOf (chunk_results : List (List (String × String)))
    (all_tests : List (String × String)) (name : String) : Option String :=
  ((merge_chunk_results chunk_results all_tests).find? (fun ts => ts.test_name = name)).map
    (fun ts => ts.status)

/-- `rfind('\n')` on the byte slice `[a, b)`. -/
def rfindNl (s : List Char) (a b : Nat) : Option Nat :=
  let slice := (s.drop a).take (b - a)
  match slice.reverse.findIdx? (fun c => c = '\n') with
  | some k => some (slice.length - 1 - k)
  | none => none

/-- The end-of-chunk computation of one `chunk_log_content` iteration. -/
def chunkEnd (s : List Char) (chunk_size start : Nat) : Nat :=
  let len := s.length
  let potential_end := start + chunk_size
  if len ≤ potential_end then len
  else
    let search_start := start + chunk_size * 3 / 4
    let search_end := potential_end
    match rfindNl s search_start search_end with
    | some pos => search_start + pos + 1
    | none =>
      match rfindNl s start search_end with
      | some pos => start + pos + 1
      | none => potential_end

/-- The `while start < len` loop of `chunk_log_content`; `fuel` bounds the
iteration count (with a positive chunk size every iteration advances, so
`len + 1` fuel is always enough). -/
def chunkLoop (s : List Char) (chunk_size start : Nat) (fuel : Nat) : List (List Char) :=
  match fuel with
  | 0 => []
  | fuel + 1 =>
    if start < s.length then
      let e := chunkEnd s chunk_size start
      (if start < e then [(s.drop start).take (e - start)] else []) ++
        chunkLoop s chunk_size e fuel
    else []

/-- Mirrors `chunk_log_content` (byte-level model; the call site in
`analyze_log_with_openai` fixes `chunk_size = 50000`). -/
def chunk_log_content (log_content : String) (chunk_size : Nat) : List String :=
  let s := log_content.toList
  if s.length ≤ chunk_size then [log_content]
  else (chunkLoop s chunk_size 0 (s.length + 1)).map String.mk

/-- The chunk size fixed at the call site. -/
def chunkSizeConst : Nat := 50000

/-! ## Foundational lemmas about the set and map models -/

lemma contains_iff (l : List String) (x : String) : l.contains x = true ↔ x ∈ l :=
  List.elem_iff

lemma mem_insS (s : List String) (x y : String) : y ∈ insS s x ↔ y ∈ s ∨ y = x := by
  unfold insS
  by_cases h : x ∈ s
  · rw [if_pos ((contains_iff s x).mpr h)]
    constructor
    · exact Or.inl
    · rintro (hy | rfl)
      · exact hy
      · exact h
  · rw [if_neg (fun hc => h ((contains_iff s x).mp hc))]
    simp [List.mem_append]

lemma self_mem_insS (s : List String) (x : String) : x ∈ insS s x := by
  rw [mem_insS]; exact Or.inr rfl

lemma mem_insS_of_mem (s : List String) (x y : String) (h : y ∈ s) : y ∈ insS s x := by
  rw [mem_insS]; exact Or.inl h

lemma mem_unionS (a b : List String) (y : String) : y ∈ unionS a b ↔ y ∈ a ∨ y ∈ b := by
  induction b generalizing a with
  | nil => simp [unionS]
  | cons x xs ih =>
    show y ∈ unionS (insS a x) xs ↔ _
    rw [ih, mem_insS, List.mem_cons]
    tauto

lemma mem_all_mkParsedLog (st : SetsT) (x : String) :
    x ∈ (mkParsedLog st).all ↔ x ∈ st.passed ∨ x ∈ st.failed ∨ x ∈ st.ignored := by
  show x ∈ unionS (unionS (unionS [] st.passed) st.failed) st.ignored ↔ _
  rw [mem_unionS, mem_unionS, mem_unionS]
  simp only [List.not_mem_nil, false_or]
  tauto

lemma mapGet_cons {β : Type} (a : String × β) (t : List (String × β)) (k : String) :
    mapGet (a :: t) k = if a.1 = k then some a.2 else mapGet t k := by
  by_cases h : a.1 = k
  · simp [mapGet, List.find?_cons_of_pos, h]
  · simp [mapGet, List.find?_cons_of_neg, h]

lemma mapGet_map_ne {β : Type} (t : List (String × β)) (k : String) (v : β) (k' : String)
    (h : ¬ k' = k) :
    mapGet (t.map (fun q => if q.1 = k then (k, v) else q)) k' = mapGet t k' := by
  induction t with
  | nil => rfl
  | cons a t ih =>
    by_cases ha : a.1 = k
    · simp only [List.map_cons, ha, if_true]
      rw [mapGet_cons, mapGet_cons]
      have h1 : ¬ (k = k') := fun hk => h hk.symm
      have h2 : ¬ (a.1 = k') := by rw [ha]; exact h1
      simp [h1, h2, ih]
    · simp only [List.map_cons, ha, if_false]
      rw [mapGet_cons, mapGet_cons, ih]

lemma mapGet_map_eq_of_any {β : Type} (t : List (String × β)) (k : String) (v : β)
    (h : t.any (fun q => q.1 = k) = true) :
    mapGet (t.map (fun q => if q.1 = k then (k, v) else q)) k = some v := by
  induction t with
  | nil => simp at h
  | cons a t ih =>
    by_cases ha : a.1 = k
    · simp only [List.map_cons, ha, if_true]
      rw [mapGet_cons]
      simp
    · simp only [List.any_cons, ha] at h
      simp only [List.map_cons, ha, if_false]
      rw [mapGet_cons]
      simp only [ha, if_false]
      exact ih (by simpa using h)

lemma mapGet_eq_none_of_any_false {β : Type} (m : List (String × β)) (k : String)
    (h : m.any (fun q => q.1 = k) = false) : mapGet m k = none := by
  induction m with
  | nil => rfl
  | cons a t ih =>
    simp only [List.any_cons, Bool.or_eq_false_iff] at h
    rw [mapGet_cons, if_neg, ih h.2]
    intro ha
    simp [ha] at h

lemma mapGet_append_single {β : Type} (m : List (String × β)) (k : String) (v : β) (k' : String)
    (hnone : mapGet m k = none) :
    mapGet (m ++ [(k, v)]) k' = if k' = k then some v else mapGet m k' := by
  induction m with
  | nil =>
    rw [List.nil_append, mapGet_cons]
    by_cases hk : k' = k
    · simp [hk]
    · have hk2 : ¬ ((k, v).1 = k') := fun h => hk h.symm
      rw [if_neg hk2, if_neg hk]
  | cons a t ih =>
    rw [List.cons_append, mapGet_cons, mapGet_cons]
    rw [mapGet_cons] at hnone
    by_cases hha : a.1 = k'
    · simp only [hha, if_true]
      by_cases hk : k' = k
      · subst hk
        rw [if_pos hha] at hnone
        simp at hnone
      · rw [if_neg hk]
    · simp only [hha, if_false]
      apply ih
      by_cases hak : a.1 = k
      · rw [if_pos hak] at hnone; simp at hnone
      · rwa [if_neg hak] at hnone

lemma mapGet_mapInsert {β : Type} (m : List (String × β)) (k : String) (v : β) (k' : String) :
    mapGet (mapInsert m k v) k' = if k' = k then some v else mapGet m k' := by
  unfold mapInsert
  by_cases hany : m.any (fun q => q.1 = k) = true
  · rw [if_pos hany]
    by_cases hk : k' = k
    · subst hk
      rw [if_pos rfl, mapGet_map_eq_of_any m k' v hany]
    · rw [mapGet_map_ne m k v k' hk, if_neg hk]
  · rw [if_neg hany]
    exact mapGet_append_single m k v k'
      (mapGet_eq_none_of_any_false m k (Bool.eq_false_iff.mpr hany))

lemma status_lookup_get (names : List String) (parsed : ParsedLog) (k : String) :
    mapGet (status_lookup names parsed) k =
      if k ∈ names then some (statusOf parsed k) else none := by
  suffices h : ∀ (init : List (String × String)),
      mapGet (names.foldl (fun out name => mapInsert out name (statusOf parsed name)) init) k =
        if k ∈ names then some (statusOf parsed k) else mapGet init k by
    simpa [status_lookup, mapGet] using h []
  induction names with
  | nil => intro init; simp
  | cons n ns ih =>
    intro init
    simp only [List.foldl_cons]
    rw [ih]
    by_cases hk : k ∈ ns
    · simp [hk, List.mem_cons]
    · by_cases hkn : k = n
      · subst hkn
        simp [hk, mapGet_mapInsert, List.mem_cons]
      · simp [hk, hkn, mapGet_mapInsert, List.mem_cons]

lemma statusOf_cases (parsed : ParsedLog) (name : String) :
    statusOf parsed name =
      if name ∈ parsed.failed then "failed"
      else if name ∈ parsed.passed then "passed"
      else if name ∈ parsed.ignored then "ignored"
      else "missing" := by
  unfold statusOf
  by_cases h1 : name ∈ parsed.failed <;>
    by_cases h2 : name ∈ parsed.passed <;>
      by_cases h3 : name ∈ parsed.ignored <;>
        simp [h1, h2, h3, contains_iff]

/-! ## C4 — Universe Resolver precedence (`status_lookup`) -/

/-- C4: for every test name in the looked-up list, `status_lookup` maps it
to `failed` if it is in the log's failed set, else `passed` if in the passed
set, else `ignored` if in the ignored set, else `missing`; consequently a
name in both the failed and the passed set resolves to `failed`, never
`passed`. -/
theorem status_lookup_precedence
    (parsed : ParsedLog) (names : List String) (name : String) (hmem : name ∈ names) :
    (mapGet (status_lookup names parsed) name =
      some (if name ∈ parsed.failed then "failed"
            else if name ∈ parsed.passed then "passed"
            else if name ∈ parsed.ignored then "ignored"
            else "missing"))
    ∧ (name ∈ parsed.failed → name ∈ parsed.passed →
        mapGet (status_lookup names parsed) name = some "failed") := by
  have hbase := status_lookup_get names parsed name
  rw [if_pos hmem, statusOf_cases] at hbase
  refine ⟨hbase, fun hf _hp => ?_⟩
  rw [hbase, if_pos hf]

/-- Witness: a name present in both `failed` and `passed` resolves to
`failed`. -/
theorem status_lookup_precedence_witness :
    ("t" ∈ ["t"]) ∧
      mapGet (status_lookup ["t"] ⟨["t"], ["t"], [], ["t"]⟩) "t" = some "failed" := by
  refine ⟨by decide, ?_⟩
  exact (status_lookup_precedence ⟨["t"], ["t"], [], ["t"]⟩ ["t"] "t" (by decide)).2
    (by decide) (by decide)

/-! ## C3 — Rule C4 (missing in base and not passing in before) -/

/-- A small constructor for concrete `ParsedLog` values in scenario
statements. -/
def plOf (p f i : List String) : ParsedLog := mkParsedLog ⟨p, f, i⟩

/-- The C4 condition for one test, as a Bool. -/
def c4Cond (base_s before_s : List (String × String)) (t : String) : Bool :=
  ((mapGet base_s t).getD "missing" = "missing") &&
  !((mapGet before_s t).getD "missing" = "passed")

/-- The C4 example string for one violating test. -/
def c4Example (before_s : List (String × String)) (t : String) : String :=
  t ++ " (missing in base, " ++ (mapGet before_s t).getD "missing" ++ " in before)"

lemma c4Step_eq (base_s before_s : List (String × String)) (hits : List String) (t : String) :
    c4Step base_s before_s hits t =
      hits ++ (if c4Cond base_s before_s t then [c4Example before_s t] else []) := by
  unfold c4Step c4Cond c4Example
  by_cases hb : (mapGet base_s t).getD "missing" = "passed"
  · have hbm : ¬ ((mapGet base_s t).getD "missing" = "missing") := by rw [hb]; decide
    simp [hb, hbm]
  · by_cases hm : (mapGet base_s t).getD "missing" = "missing"
    · by_cases hbe : (mapGet before_s t).getD "missing" = "passed"
      · simp [hb, hm, hbe]
      · simp [hb, hm, hbe]
    · simp [hb, hm]

lemma c4Hits_acc (base_s before_s : List (String × String)) :
    ∀ (p2p : List String) (acc : List String),
      p2p.foldl (c4Step base_s before_s) acc =
        acc ++ p2p.foldl (c4Step base_s before_s) []
  | [], acc => by simp
  | t :: ts, acc => by
    simp only [List.foldl_cons]
    rw [c4Hits_acc base_s before_s ts (c4Step base_s before_s acc t),
        c4Hits_acc base_s before_s ts (c4Step base_s before_s [] t),
        c4Step_eq, c4Step_eq base_s before_s []]
    simp [List.append_assoc]

lemma c4Hits_cons (base_s before_s : List (String × String)) (t : String)
    (ts : List String) :
    c4Hits base_s before_s (t :: ts) =
      (if c4Cond base_s before_s t then [c4Example before_s t] else []) ++
        c4Hits base_s before_s ts := by
  unfold c4Hits
  rw [List.foldl_cons, c4Hits_acc, c4Step_eq]
  simp

lemma mem_c4Hits (base_s before_s : List (String × String)) (p2p : List String)
    (e : String) :
    e ∈ c4Hits base_s before_s p2p ↔
      ∃ t ∈ p2p, c4Cond base_s before_s t = true ∧ e = c4Example before_s t := by
  induction p2p with
  | nil => simp [c4Hits]
  | cons t ts ih =>
    rw [c4Hits_cons, List.mem_append, ih]
    constructor
    · rintro (he | ⟨s, hs, hc, rfl⟩)
      · by_cases hc : c4Cond base_s before_s t
        · rw [if_pos hc] at he
          simp only [List.mem_singleton] at he
          exact ⟨t, List.mem_cons_self t ts, hc, he⟩
        · rw [if_neg hc] at he
          exact absurd he (List.not_mem_nil e)
      · exact ⟨s, List.mem_cons_of_mem t hs, hc, rfl⟩
    · rintro ⟨s, hs, hc, rfl⟩
      rcases List.mem_cons.mp hs with rfl | hs
      · exact Or.inl (by rw [if_pos hc]; exact List.mem_singleton_self _)
      · exact Or.inr ⟨s, hs, hc, rfl⟩

lemma statusLookup_getD (names : List String) (parsed : ParsedLog) (t : String)
    (h : t ∈ names) :
    (mapGet (status_lookup names parsed) t).getD "missing" = statusOf parsed t := by
  rw [status_lookup_get, if_pos h]
  rfl

/-- C3: a P2P test `passed` in base is skipped; one `missing` in base is a
violation exactly when it is not `passed` in before; `has_problem` (a
non-empty example list) holds exactly when some P2P test violates this, and
each example string cites the offending test.  Concretely: P2P `["a"]` with
`a` missing in base and passed in before gives no problem; the same with
`a` missing in before gives a problem citing `a`. -/
theorem c4_rule_spec :
    (∀ (baseP beforeP : ParsedLog) (p2p f2p : List String),
      (∀ e, e ∈ c4Hits (status_lookup (p2p ++ f2p) baseP)
          (status_lookup (p2p ++ f2p) beforeP) p2p ↔
        ∃ t ∈ p2p, statusOf baseP t = "missing" ∧ ¬ statusOf beforeP t = "passed" ∧
          e = t ++ " (missing in base, " ++ statusOf beforeP t ++ " in before)")
      ∧ (c4Hits (status_lookup (p2p ++ f2p) baseP)
          (status_lookup (p2p ++ f2p) beforeP) p2p ≠ [] ↔
          ∃ t ∈ p2p, statusOf baseP t = "missing" ∧ ¬ statusOf beforeP t = "passed"))
    ∧ (generate_analysis_result (fun _ => none) (plOf [] [] []) (plOf ["a"] [] [])
        (plOf [] [] []) none ["a"] [] "" "" "" none none []).c4.has_problem = false
    ∧ (generate_analysis_result (fun _ => none) (plOf [] [] []) (plOf [] [] [])
        (plOf [] [] []) none ["a"] [] "" "" "" none none []).c4.has_problem = true
    ∧ ("a (missing in base, missing in before)" ∈
        (generate_analysis_result (fun _ => none) (plOf [] [] []) (plOf [] [] [])
          (plOf [] [] []) none ["a"] [] "" "" "" none none []).c4.examples) := by
  refine ⟨?_, by decide, by decide, by decide⟩
  intro baseP beforeP p2p f2p
  have hmem : ∀ t, t ∈ p2p → t ∈ p2p ++ f2p := fun t ht => List.mem_append.mpr (Or.inl ht)
  have hchar : ∀ e, e ∈ c4Hits (status_lookup (p2p ++ f2p) baseP)
      (status_lookup (p2p ++ f2p) beforeP) p2p ↔
      ∃ t ∈ p2p, statusOf baseP t = "missing" ∧ ¬ statusOf beforeP t = "passed" ∧
        e = t ++ " (missing in base, " ++ statusOf beforeP t ++ " in before)" := by
    intro e
    rw [mem_c4Hits]
    constructor
    · rintro ⟨t, ht, hc, rfl⟩
      unfold c4Cond at hc
      rw [statusLookup_getD _ _ _ (hmem t ht), statusLookup_getD _ _ _ (hmem t ht)] at hc
      simp only [Bool.and_eq_true, decide_eq_true_eq, Bool.not_eq_true',
        decide_eq_false_iff_not] at hc
      refine ⟨t, ht, hc.1, hc.2, ?_⟩
      unfold c4Example
      rw [statusLookup_getD _ _ _ (hmem t ht)]
    · rintro ⟨t, ht, hb, hbe, rfl⟩
      refine ⟨t, ht, ?_, ?_⟩
      · unfold c4Cond
        rw [statusLookup_getD _ _ _ (hmem t ht), statusLookup_getD _ _ _ (hmem t ht)]
        simp [hb, hbe]
      · unfold c4Example
        rw [statusLookup_getD _ _ _ (hmem t ht)]
  refine ⟨hchar, ?_, ?_⟩
  · intro hne
    rcases List.exists_mem_of_ne_nil _ hne with ⟨e, he⟩
    rcases (hchar e).mp he with ⟨t, ht, hb, hbe, _⟩
    exact ⟨t, ht, hb, hbe⟩
  · rintro ⟨t, ht, hb, hbe⟩
    intro hnil
    have hm := (hchar (t ++ " (missing in base, " ++ statusOf beforeP t ++ " in before)")).mpr
      ⟨t, ht, hb, hbe, rfl⟩
    rw [hnil] at hm
    exact absurd hm (List.not_mem_nil _)

/-- Witness for the C4-rule theorem: the violating example string for `a`
is produced in the missing-in-before scenario. -/
theorem c4_rule_spec_witness :
    ("a" ∈ ["a"] ∧ statusOf (plOf [] [] []) "a" = "missing" ∧
      ¬ statusOf (plOf [] [] []) "a" = "passed") ∧
    ("a (missing in base, missing in before)" ∈
      c4Hits (status_lookup (["a"] ++ []) (plOf [] [] []))
        (status_lookup (["a"] ++ []) (plOf [] [] [])) ["a"]) := by
  refine ⟨⟨by decide, by decide, by decide⟩, ?_⟩
  exact ((c4_rule_spec.1 (plOf [] [] []) (plOf [] [] []) ["a"] []).1
    "a (missing in base, missing in before)").mpr
    ⟨"a", by decide, by decide, by decide, by decide⟩

/-! ## C1 — Acceptance decision (ignored / rejected / ok and the rejection
flag) -/

lemma statusLookup_get_mem (names : List String) (parsed : ParsedLog) (t : String)
    (h : t ∈ names) :
    mapGet (status_lookup names parsed) t = some (statusOf parsed t) := by
  rw [status_lookup_get, if_pos h]

/-- Counterexample to C1's partition: a P2P test `failed` in base (hence not
ignored, not missing in base) lands in none of the ignored / rejected / ok
lists, though it is considered. -/
theorem acceptance_partition_counterexample :
    ("a" ∈ (generate_analysis_result (fun _ => none) (plOf [] ["a"] []) (plOf [] [] [])
        (plOf [] [] []) none ["a"] [] "" "" "" none none []).p2p_considered)
    ∧ ¬ ("a" ∈ (generate_analysis_result (fun _ => none) (plOf [] ["a"] []) (plOf [] [] [])
        (plOf [] [] []) none ["a"] [] "" "" "" none none []).p2p_ignored)
    ∧ ¬ ("a" ∈ (generate_analysis_result (fun _ => none) (plOf [] ["a"] []) (plOf [] [] [])
        (plOf [] [] []) none ["a"] [] "" "" "" none none []).p2p_rejected)
    ∧ ¬ ("a" ∈ (generate_analysis_result (fun _ => none) (plOf [] ["a"] []) (plOf [] [] [])
        (plOf [] [] []) none ["a"] [] "" "" "" none none []).p2p_ok) := by
  decide

/-- C1 (amended): a P2P test is ignored iff `passed` in both base and
after; a non-ignored one is rejected iff `missing` in base and not `passed`
in before, and listed ok iff `missing` in base and `passed` in before (so a
considered test that is `failed` or `ignored` in base is in neither list);
the rejection flag holds iff some P2P test is rejected. -/
theorem acceptance_partition_amended :
    ∀ (baseP beforeP afterP : ParsedLog) (p2p f2p : List String) (t : String), t ∈ p2p →
      ((t ∈ p2pIgnoredL (status_lookup (p2p ++ f2p) baseP)
          (status_lookup (p2p ++ f2p) afterP) p2p ↔
        statusOf baseP t = "passed" ∧ statusOf afterP t = "passed")
      ∧ (t ∈ p2pRejectedL (status_lookup (p2p ++ f2p) baseP)
          (status_lookup (p2p ++ f2p) beforeP) (status_lookup (p2p ++ f2p) afterP) p2p ↔
        ¬ (statusOf baseP t = "passed" ∧ statusOf afterP t = "passed") ∧
          statusOf baseP t = "missing" ∧ ¬ statusOf beforeP t = "passed")
      ∧ (t ∈ p2pOkL (status_lookup (p2p ++ f2p) baseP)
          (status_lookup (p2p ++ f2p) beforeP) (status_lookup (p2p ++ f2p) afterP) p2p ↔
        ¬ (statusOf baseP t = "passed" ∧ statusOf afterP t = "passed") ∧
          statusOf baseP t = "missing" ∧ statusOf beforeP t = "passed")
      ∧ (p2pRejectedL (status_lookup (p2p ++ f2p) baseP)
          (status_lookup (p2p ++ f2p) beforeP) (status_lookup (p2p ++ f2p) afterP) p2p ≠ [] ↔
        ∃ s ∈ p2p, statusOf baseP s = "missing" ∧ ¬ statusOf beforeP s = "passed")) := by
  intro baseP beforeP afterP p2p f2p t ht
  have hmem : ∀ s, s ∈ p2p → s ∈ p2p ++ f2p := fun s hs => List.mem_append.mpr (Or.inl hs)
  have hign : ∀ s, s ∈ p2p →
      (s ∈ p2pIgnoredL (status_lookup (p2p ++ f2p) baseP)
        (status_lookup (p2p ++ f2p) afterP) p2p ↔
       statusOf baseP s = "passed" ∧ statusOf afterP s = "passed") := by
    intro s hs
    unfold p2pIgnoredL
    rw [List.mem_filter]
    simp only [statusLookup_get_mem _ baseP s (hmem s hs),
      statusLookup_get_mem _ afterP s (hmem s hs), Bool.and_eq_true, beq_iff_eq,
      Option.some.injEq]
    tauto
  have hrej : ∀ s, s ∈ p2p →
      (s ∈ p2pRejectedL (status_lookup (p2p ++ f2p) baseP)
        (status_lookup (p2p ++ f2p) beforeP) (status_lookup (p2p ++ f2p) afterP) p2p ↔
       ¬ (statusOf baseP s = "passed" ∧ statusOf afterP s = "passed") ∧
         statusOf baseP s = "missing" ∧ ¬ statusOf beforeP s = "passed") := by
    intro s hs
    unfold p2pRejectedL p2pConsideredL
    rw [List.mem_filter, List.mem_filter]
    simp only [statusLookup_get_mem _ baseP s (hmem s hs),
      statusLookup_get_mem _ beforeP s (hmem s hs),
      statusLookup_get_mem _ afterP s (hmem s hs), Bool.and_eq_true, beq_iff_eq,
      Option.some.injEq, Bool.not_eq_true', Bool.and_eq_false_iff, beq_eq_false_iff_ne,
      ne_eq]
    constructor
    · rintro ⟨⟨_, hcons⟩, hb, hbe⟩
      exact ⟨by tauto, hb, hbe⟩
    · rintro ⟨hni, hb, hbe⟩
      exact ⟨⟨hs, by tauto⟩, hb, hbe⟩
  refine ⟨hign t ht, hrej t ht, ?_, ?_⟩
  · unfold p2pOkL p2pConsideredL
    rw [List.mem_filter, List.mem_filter]
    simp only [statusLookup_get_mem _ baseP t (hmem t ht),
      statusLookup_get_mem _ beforeP t (hmem t ht),
      statusLookup_get_mem _ afterP t (hmem t ht), Bool.and_eq_true, beq_iff_eq,
      Option.some.injEq, Bool.not_eq_true', Bool.and_eq_false_iff, beq_eq_false_iff_ne,
      ne_eq]
    constructor
    · rintro ⟨⟨_, hcons⟩, hb, hbe⟩
      exact ⟨by tauto, hb, hbe⟩
    · rintro ⟨hni, hb, hbe⟩
      exact ⟨⟨ht, by tauto⟩, hb, hbe⟩
  · constructor
    · intro hne
      rcases List.exists_mem_of_ne_nil _ hne with ⟨e, he⟩
      have hep2p : e ∈ p2p := by
        have := List.mem_filter.mp he
        exact (List.mem_filter.mp this.1).1
      rcases (hrej e hep2p).mp he with ⟨_, hb, hbe⟩
      exact ⟨e, hep2p, hb, hbe⟩
    · rintro ⟨s, hs, hb, hbe⟩
      intro hnil
      have hmem2 : s ∈ p2pRejectedL (status_lookup (p2p ++ f2p) baseP)
          (status_lookup (p2p ++ f2p) beforeP) (status_lookup (p2p ++ f2p) afterP) p2p := by
        refine (hrej s hs).mpr ⟨?_, hb, hbe⟩
        rintro ⟨hp, _⟩
        rw [hb] at hp
        exact absurd hp (by decide)
      rw [hnil] at hmem2
      exact absurd hmem2 (List.not_mem_nil _)

/-- Witness: a test passed in base and after is in the ignored list. -/
theorem acceptance_partition_amended_witness :
    ("a" ∈ ["a"]) ∧
      "a" ∈ p2pIgnoredL (status_lookup (["a"] ++ []) (plOf ["a"] [] []))
        (status_lookup (["a"] ++ []) (plOf ["a"] [] [])) ["a"] := by
  refine ⟨by decide, ?_⟩
  exact ((acceptance_partition_amended (plOf ["a"] [] []) (plOf [] [] [])
    (plOf ["a"] [] []) ["a"] [] "a" (by decide)).1).mpr ⟨by decide, by decide⟩

/-! ## C5 — Chunk-result merge laws (`merge_chunk_results`) -/

/-- C5: across two chunks mentioning the same test, the merged status is
order-independent for the LLM status alphabet; identical repeats are
idempotent; `failed` beats `passed` in either order; a concrete status
beats `non_existing` in either order. -/
theorem merge_chunk_laws :
    ∀ a b : String, a ∈ ["passed", "failed", "non_existing"] →
      b ∈ ["passed", "failed", "non_existing"] →
      (mergedStatusOf [[("t", a)], [("t", b)]] [("fail_to_pass", "t")] "t" =
        mergedStatusOf [[("t", b)], [("t", a)]] [("fail_to_pass", "t")] "t")
      ∧ (mergedStatusOf [[("t", a)], [("t", a)]] [("fail_to_pass", "t")] "t" = some a)
      ∧ (mergedStatusOf [[("t", "non_existing")], [("t", b)]] [("fail_to_pass", "t")] "t" =
          some b)
      ∧ (mergedStatusOf [[("t", b)], [("t", "non_existing")]] [("fail_to_pass", "t")] "t" =
          some b)
      ∧ (mergedStatusOf [[("t", "failed")], [("t", "passed")]] [("fail_to_pass", "t")] "t" =
          some "failed")
      ∧ (mergedStatusOf [[("t", "passed")], [("t", "failed")]] [("fail_to_pass", "t")] "t" =
          some "failed")
      ∧ (mergedStatusOf [[("t", "non_existing")], [("t", "passed")]] [("fail_to_pass", "t")]
          "t" = some "passed") := by
  intro a b ha hb
  fin_cases ha <;> fin_cases hb <;> exact ⟨rfl, rfl, rfl, rfl, rfl, rfl, rfl⟩

/-- Witness for the merge laws at `a = "failed"`, `b = "passed"`. -/
theorem merge_chunk_laws_witness :
    ("failed" ∈ ["passed", "failed", "non_existing"] ∧
     "passed" ∈ ["passed", "failed", "non_existing"]) ∧
    mergedStatusOf [[("t", "failed")], [("t", "passed")]] [("fail_to_pass", "t")] "t" =
      some "failed" := by
  refine ⟨⟨by decide, by decide⟩, ?_⟩
  exact (merge_chunk_laws "failed" "passed" (by decide) (by decide)).2.2.2.2.1

/-! ## C10 — Chunking round-trip (`chunk_log_content`) -/

lemma rfindNl_some_bound (s : List Char) (a b pos : Nat) (h : rfindNl s a b = some pos) :
    a + pos < b := by
  simp only [rfindNl] at h
  set slice := (s.drop a).take (b - a) with hslice
  cases hf : slice.reverse.findIdx? (fun c => c = '\n') with
  | none => rw [hf] at h; simp at h
  | some k =>
    rw [hf] at h
    simp only [Option.some.injEq] at h
    have hlen : slice.length ≤ b - a := by
      rw [hslice, List.length_take]
      exact min_le_left _ _
    have hne : slice ≠ [] := by
      intro hnil
      rw [hnil] at hf
      simp [List.findIdx?] at hf
    have hpos : 1 ≤ slice.length := List.length_pos.mpr hne
    omega

lemma chunkEnd_bounds (s : List Char) (cs start : Nat) (hs : start < s.length)
    (hcs : 0 < cs) :
    start < chunkEnd s cs start ∧ chunkEnd s cs start ≤ s.length := by
  simp only [chunkEnd]
  split
  · omega
  · rename_i h1
    split
    · rename_i pos hr
      have := rfindNl_some_bound s _ _ _ hr
      omega
    · split
      · rename_i pos hr
        have := rfindNl_some_bound s _ _ _ hr
        omega
      · omega

lemma chunkLoop_join (s : List Char) (cs : Nat) (hcs : 0 < cs) :
    ∀ (fuel start : Nat), s.length - start < fuel →
      (chunkLoop s cs start fuel).flatten = s.drop start
  | 0, _start, h => absurd h (Nat.not_lt_zero _)
  | fuel + 1, start, h => by
    simp only [chunkLoop]
    by_cases hs : start < s.length
    · rw [if_pos hs]
      obtain ⟨h1, h2⟩ := chunkEnd_bounds s cs start hs hcs
      rw [if_pos h1, List.singleton_append, List.flatten_cons]
      rw [chunkLoop_join s cs hcs fuel (chunkEnd s cs start) (by omega)]
      have hdrop : s.drop (chunkEnd s cs start) =
          (s.drop start).drop (chunkEnd s cs start - start) := by
        rw [List.drop_drop]
        congr 1
        omega
      rw [hdrop, List.take_append_drop]
    · rw [if_neg hs]
      simp [List.drop_eq_nil_of_le (by omega : s.length ≤ start)]

lemma chunkLoop_ne_nil (s : List Char) (cs : Nat) (hcs : 0 < cs) :
    ∀ (fuel start : Nat), ∀ c ∈ chunkLoop s cs start fuel, c ≠ []
  | 0, start, c, hc => by simp [chunkLoop] at hc
  | fuel + 1, start, c, hc => by
    simp only [chunkLoop] at hc
    by_cases hs : start < s.length
    · rw [if_pos hs] at hc
      obtain ⟨h1, _h2⟩ := chunkEnd_bounds s cs start hs hcs
      rw [if_pos h1, List.singleton_append, List.mem_cons] at hc
      rcases hc with rfl | hc
      · intro hnil
        have hlen := congrArg List.length hnil
        simp only [List.length_take, List.length_drop, List.length_nil] at hlen
        omega
      · exact chunkLoop_ne_nil s cs hcs fuel (chunkEnd s cs start) c hc
    · rw [if_neg hs] at hc
      simp at hc

lemma foldl_strAppend_data : ∀ (l : List String) (init : String),
    (l.foldl (· ++ ·) init).data = init.data ++ (l.map String.data).flatten
  | [], init => by simp
  | x :: xs, init => by
    simp only [List.foldl_cons, List.map_cons, List.flatten_cons]
    rw [foldl_strAppend_data xs (init ++ x), String.data_append]
    simp [List.append_assoc]

lemma string_join_data (l : List String) :
    (String.join l).data = (l.map String.data).flatten := by
  simpa [String.join] using foldl_strAppend_data l ""

/-- Counterexample to C10's "no returned chunk is empty": the empty input
is returned as the single empty chunk. -/
theorem chunk_log_content_empty_counterexample :
    chunk_log_content "" chunkSizeConst = [""] ∧ "" ∈ chunk_log_content "" chunkSizeConst := by
  decide

/-- C10 (amended): for every input and positive chunk size, concatenating
the chunks reproduces the input, every chunk is non-empty provided the
input is non-empty (the empty input yields the single empty chunk), and
an input no longer than the chunk size is returned as the single chunk
equal to the input. -/
theorem chunk_log_content_spec :
    ∀ (content : String) (cs : Nat), 0 < cs →
      (String.join (chunk_log_content content cs) = content)
      ∧ (content ≠ "" → ∀ c ∈ chunk_log_content content cs, c ≠ "")
      ∧ (content.toList.length ≤ cs → chunk_log_content content cs = [content]) := by
  intro content cs hcs
  refine ⟨?_, ?_, ?_⟩
  · apply String.ext
    rw [string_join_data]
    simp only [chunk_log_content]
    by_cases hlen : content.toList.length ≤ cs
    · rw [if_pos hlen]
      simp
    · rw [if_neg hlen]
      rw [List.map_map]
      have hcomp : (String.data ∘ String.mk) = id := rfl
      rw [hcomp, List.map_id]
      rw [chunkLoop_join content.toList cs hcs (content.toList.length + 1) 0 (by omega)]
      simp
  · intro hne c hc
    simp only [chunk_log_content] at hc
    by_cases hlen : content.toList.length ≤ cs
    · rw [if_pos hlen] at hc
      simp only [List.mem_singleton] at hc
      subst hc
      exact hne
    · rw [if_neg hlen] at hc
      simp only [List.mem_map] at hc
      rcases hc with ⟨lc, hlc, rfl⟩
      have hnn := chunkLoop_ne_nil content.toList cs hcs (content.toList.length + 1) 0 lc hlc
      intro hmk
      apply hnn
      simpa using congrArg String.data hmk
  · intro hle
    simp only [chunk_log_content]
    rw [if_pos hle]

/-- Witness for the chunking round-trip at the call-site chunk size. -/
theorem chunk_log_content_spec_witness :
    (0 < chunkSizeConst) ∧ String.join (chunk_log_content "x" chunkSizeConst) = "x" :=
  ⟨by decide, (chunk_log_content_spec "x" chunkSizeConst (by decide)).1⟩

/-! ## C6 — Format classification ordering (nextest before single-line) -/

/-- Six nextest-style result lines (the spec's classification scenario). -/
def sixNextestLines : String :=
  "PASS [0.01s] crate mod::test_a\nPASS [0.01s] crate mod::test_b\n" ++
  "PASS [0.01s] crate mod::test_c\nPASS [0.01s] crate mod::test_d\n" ++
  "PASS [0.01s] crate mod::test_e\nPASS [0.01s] crate mod::test_f"

/-- A log that satisfies both the nextest criteria and the ANSI/single-line
criteria. -/
def ansiNextestLog : String := "cargo nextest run\n\x1B[32mtest a ... ok\x1B[0m"

/-- C6: nextest detection runs before single-line/ANSI detection, so any
text satisfying the nextest criteria is parsed with the nextest strategy —
even one that also satisfies the single-line/ANSI criteria — and a log of
six `PASS [0.01s] crate mod::test_x` lines classifies as nextest, not
standard. -/
theorem nextest_classified_first :
    (∀ t : String, looks_nextest_format t = true →
      classifyFormat t = LogFormat.nextest ∧ parseRustLogContent t = parse_nextest_log t)
    ∧ classifyFormat sixNextestLines = LogFormat.nextest
    ∧ (looks_single_line_like ansiNextestLog = true ∧
       classifyFormat ansiNextestLog = LogFormat.nextest) := by
  refine ⟨?_, by decide, by decide, by decide⟩
  intro t ht
  constructor
  · unfold classifyFormat
    rw [if_pos ht]
  · unfold parseRustLogContent classifyFormat
    rw [if_pos ht]

/-- Witness: `ansiNextestLog` satisfies the nextest criteria, so the
dispatch picks the nextest parser for it. -/
theorem nextest_classified_first_witness :
    looks_nextest_format ansiNextestLog = true ∧
      parseRustLogContent ansiNextestLog = parse_nextest_log ansiNextestLog :=
  ⟨by decide, (nextest_classified_first.1 ansiNextestLog (by decide)).2⟩

/-! ## C2 — ParsedLog: `all` is the union; the three sets need not be
disjoint -/

/-- A log whose test `a` is reported `ok` on one line and `FAILED` on
another (parsed with the standard strategy). -/
def c2Text : String := "test a ... ok\ntest a ... FAILED"

/-- Counterexample to C2's disjointness: pass 1 of the standard strategy
inserts `a` into both `passed` and `failed`. -/
theorem parsedlog_disjoint_counterexample :
    "a" ∈ (parseRustLogContent c2Text).passed ∧
    "a" ∈ (parseRustLogContent c2Text).failed := by
  decide

/-- C2 (amended): for every input text and each of the three extraction
strategies, the `all` set is exactly the union of `passed`, `failed` and
`ignored`; the three sets are however not pairwise disjoint in general —
a name reported with conflicting statuses lands in several of them, the
conflict being resolved later by `status_lookup` precedence. -/
theorem parsedlog_all_union_amended :
    ∀ (text : String) (x : String),
      (x ∈ (parseRustLogStandard text).all ↔
        x ∈ (parseRustLogStandard text).passed ∨ x ∈ (parseRustLogStandard text).failed ∨
        x ∈ (parseRustLogStandard text).ignored)
      ∧ (x ∈ (parse_rust_log_single_line text).all ↔
        x ∈ (parse_rust_log_single_line text).passed ∨
        x ∈ (parse_rust_log_single_line text).failed ∨
        x ∈ (parse_rust_log_single_line text).ignored)
      ∧ (x ∈ (parse_nextest_log text).all ↔
        x ∈ (parse_nextest_log text).passed ∨ x ∈ (parse_nextest_log text).failed ∨
        x ∈ (parse_nextest_log text).ignored) := by
  intro text x
  exact ⟨mem_all_mkParsedLog (standardSets text) x,
         mem_all_mkParsedLog (singleLineSets text) x,
         mem_all_mkParsedLog (nextestSets text) x⟩

/-! ## C7 — True-duplicate criterion (`is_true_duplicate`) -/

lemma getD_eq_get (l : List Nat) (i : Nat) (h : i < l.length) :
    l.getD i 0 = l.get ⟨i, h⟩ := by
  rw [List.getD_eq_getD_get?, List.get?_eq_get h]
  rfl

lemma minConsecDiff_lt_iff : ∀ (l : List Nat) (acc c : Nat),
    minConsecDiff l acc < c ↔
      acc < c ∨ ∃ i, i + 1 < l.length ∧ l.getD (i+1) 0 - l.getD i 0 < c
  | [], acc, c => by simp [minConsecDiff]
  | [a], acc, c => by simp [minConsecDiff]
  | a :: b :: t, acc, c => by
    show minConsecDiff (b :: t) (min acc (b - a)) < c ↔ _
    rw [minConsecDiff_lt_iff (b :: t) (min acc (b - a)) c]
    constructor
    · rintro (hmin | ⟨i, hi, hd⟩)
      · rcases min_lt_iff.mp hmin with h | h
        · exact Or.inl h
        · refine Or.inr ⟨0, by simp, by simpa using h⟩
      · refine Or.inr ⟨i + 1, by simpa using hi, by simpa using hd⟩
    · rintro (hacc | ⟨i, hi, hd⟩)
      · exact Or.inl (min_lt_iff.mpr (Or.inl hacc))
      · cases i with
        | zero => exact Or.inl (min_lt_iff.mpr (Or.inr (by simpa using hd)))
        | succ j => exact Or.inr ⟨j, by simpa using hi, by simpa using hd⟩

lemma sorted_adjacent_iff_pairs (l : List Nat) (hs : l.Sorted (· ≤ ·)) (c : Nat) :
    (∃ i, i + 1 < l.length ∧ l.getD (i+1) 0 - l.getD i 0 < c) ↔
    (∃ i j : Fin l.length, i < j ∧ l.get j - l.get i < c) := by
  constructor
  · rintro ⟨i, hi, hd⟩
    refine ⟨⟨i, by omega⟩, ⟨i+1, hi⟩, by simp [Fin.lt_def], ?_⟩
    rwa [getD_eq_get l (i+1) hi, getD_eq_get l i (by omega)] at hd
  · rintro ⟨i, j, hij, hd⟩
    have hi1 : (i : Nat) + 1 < l.length := by
      have := j.isLt
      have := Fin.lt_def.mp hij
      omega
    refine ⟨i, hi1, ?_⟩
    rw [getD_eq_get l ((i : Nat)+1) hi1, getD_eq_get l i (by omega)]
    have hle : l.get ⟨(i : Nat)+1, hi1⟩ ≤ l.get j := by
      rcases Nat.lt_or_ge ((i : Nat)+1) (j : Nat) with hlt | hge
      · exact List.pairwise_iff_get.mp hs ⟨(i : Nat)+1, hi1⟩ j (Fin.lt_def.mpr hlt)
      · have hj : ((i : Nat)+1) = (j : Nat) := by
          have := Fin.lt_def.mp hij
          omega
        have : (⟨(i : Nat)+1, hi1⟩ : Fin l.length) = j := Fin.ext hj
        rw [this]
    have hii : l.get ⟨(i : Nat), by omega⟩ = l.get i := by congr 1
    rw [hii]
    omega

lemma pairs_iff_not_pairwise (l : List Nat) (c : Nat) :
    (∃ i j : Fin l.length, i ≠ j ∧ Nat.dist (l.get i) (l.get j) < c) ↔
    ¬ l.Pairwise (fun x y => ¬ Nat.dist x y < c) := by
  rw [List.pairwise_iff_get]
  constructor
  · rintro ⟨i, j, hij, hd⟩ hall
    rcases Fin.lt_or_lt_of_ne hij with hlt | hlt
    · exact hall i j hlt hd
    · exact hall j i hlt (by rwa [Nat.dist_comm])
  · intro hnall
    push_neg at hnall
    rcases hnall with ⟨i, j, hij, hd⟩
    exact ⟨i, j, Fin.ne_of_lt hij, hd⟩

lemma sorted_pairs_dist (l : List Nat) (hs : l.Sorted (· ≤ ·)) (c : Nat) :
    (∃ i j : Fin l.length, i < j ∧ l.get j - l.get i < c) ↔
    (∃ i j : Fin l.length, i ≠ j ∧ Nat.dist (l.get i) (l.get j) < c) := by
  constructor
  · rintro ⟨i, j, hij, hd⟩
    refine ⟨i, j, Fin.ne_of_lt hij, ?_⟩
    have hle : l.get i ≤ l.get j := List.pairwise_iff_get.mp hs i j hij
    rwa [Nat.dist_eq_sub_of_le hle]
  · rintro ⟨i, j, hij, hd⟩
    rcases Fin.lt_or_lt_of_ne hij with hlt | hlt
    · have hle : l.get i ≤ l.get j := List.pairwise_iff_get.mp hs i j hlt
      exact ⟨i, j, hlt, by rwa [Nat.dist_eq_sub_of_le hle] at hd⟩
    · have hle : l.get j ≤ l.get i := List.pairwise_iff_get.mp hs j i hlt
      rw [Nat.dist_comm] at hd
      exact ⟨j, i, hlt, by rwa [Nat.dist_eq_sub_of_le hle] at hd⟩

lemma min_dist_characterization (ls : List Nat) (c : Nat) (hc : c ≤ usizeMax) :
    (minConsecDiff (sortNat ls) usizeMax < c ↔
      ∃ i j : Fin ls.length, i ≠ j ∧ Nat.dist (ls.get i) (ls.get j) < c) := by
  have hperm : List.Perm (sortNat ls) ls := List.perm_insertionSort (· ≤ ·) ls
  have hsort : List.Sorted (· ≤ ·) (sortNat ls) := List.sorted_insertionSort (· ≤ ·) ls
  rw [minConsecDiff_lt_iff]
  have husize : ¬ (usizeMax < c) := by omega
  rw [sorted_adjacent_iff_pairs _ hsort, sorted_pairs_dist _ hsort,
    pairs_iff_not_pairwise, pairs_iff_not_pairwise]
  have hsym : ∀ {x y : Nat}, (fun x y => ¬ Nat.dist x y < c) x y →
      (fun x y => ¬ Nat.dist x y < c) y x := by
    intro x y h
    simpa [Nat.dist_comm] using h
  rw [hperm.pairwise_iff hsym]
  tauto

/-- C7: a same-file occurrence group is reported as a true duplicate
exactly when it has more than one element and (a) two occurrences lie
within 10 source lines of each other, or (b) the group contains both an
`ok` and a `failed`/`error` status, or (c) every occurrence's concatenated
context is non-empty and identical to the first occurrence's. -/
theorem is_true_duplicate_iff (occ : List Occur) :
    is_true_duplicate occ = true ↔
      1 < occ.length ∧
      ((∃ i j : Fin occ.length, i ≠ j ∧
          Nat.dist ((occ.get i).line_no) ((occ.get j).line_no) < 10)
       ∨ ((∃ o ∈ occ, toLowerStr o.status = "failed" ∨ toLowerStr o.status = "error") ∧
          (∃ o ∈ occ, toLowerStr o.status = "ok"))
       ∨ (∀ o ∈ occ, ctxConcat o ≠ "" ∧ ctxConcat o = ctxConcat occ.headI)) := by
  simp only [is_true_duplicate]
  by_cases hlen : occ.length ≤ 1
  · rw [if_pos hlen]
    constructor
    · intro h
      simp at h
    · rintro ⟨h1, _⟩
      omega
  · rw [if_neg hlen]
    have hlen' : 1 < occ.length := by omega
    have hA : minConsecDiff (sortNat (occ.map (fun o => o.line_no))) usizeMax < 10 ↔
        ∃ i j : Fin occ.length, i ≠ j ∧
          Nat.dist ((occ.get i).line_no) ((occ.get j).line_no) < 10 := by
      rw [min_dist_characterization (occ.map (fun o => o.line_no)) 10 (by unfold usizeMax; omega)]
      constructor
      · rintro ⟨i, j, hij, hd⟩
        have hil : (i : Nat) < occ.length := by
          have := i.isLt
          simpa using this
        have hjl : (j : Nat) < occ.length := by
          have := j.isLt
          simpa using this
        refine ⟨⟨i, hil⟩, ⟨j, hjl⟩, ?_, ?_⟩
        · intro he
          apply hij
          apply Fin.ext
          simpa using congrArg Fin.val he
        · rwa [List.get_map, List.get_map] at hd
      · rintro ⟨i, j, hij, hd⟩
        have hil : (i : Nat) < (occ.map (fun o => o.line_no)).length := by simpa using i.isLt
        have hjl : (j : Nat) < (occ.map (fun o => o.line_no)).length := by simpa using j.isLt
        refine ⟨⟨i, hil⟩, ⟨j, hjl⟩, ?_, ?_⟩
        · intro he
          apply hij
          apply Fin.ext
          simpa using congrArg Fin.val he
        · rw [List.get_map, List.get_map]
          simpa using hd
    have hB : ((occ.any (fun o =>
          let s := toLowerStr o.status
          s = "failed" || s = "error")) = true ∧ (occ.any (fun o => toLowerStr o.status = "ok")) = true) ↔
        ((∃ o ∈ occ, toLowerStr o.status = "failed" ∨ toLowerStr o.status = "error") ∧
         (∃ o ∈ occ, toLowerStr o.status = "ok")) := by
      simp [List.any_eq_true]
    have hC : ((!(occ.map ctxConcat).isEmpty) &&
          (occ.map ctxConcat).all (fun cx => !(cx = "") && cx = (occ.map ctxConcat).headI)) = true ↔
        (∀ o ∈ occ, ctxConcat o ≠ "" ∧ ctxConcat o = ctxConcat occ.headI) := by
      rcases occ with _ | ⟨o0, rest⟩
      · simp at hlen'
      · simp only [List.map_cons, List.headI, List.isEmpty_cons, Bool.not_false,
          Bool.true_and, List.all_eq_true]
        constructor
        · intro h o ho
          have hmem : ctxConcat o ∈ ctxConcat o0 :: List.map ctxConcat rest := by
            rcases List.mem_cons.mp ho with rfl | ho2
            · exact List.mem_cons_self _ _
            · exact List.mem_cons_of_mem _ (List.mem_map_of_mem ctxConcat ho2)
          have := h (ctxConcat o) hmem
          simpa [Bool.and_eq_true] using this
        · intro h cx hcx
          rcases List.mem_cons.mp hcx with rfl | hcx2
          · have h2 := h o0 (List.mem_cons_self _ _)
            rw [Bool.and_eq_true]
            refine ⟨by simpa using h2.1, by simp⟩
          · rcases List.mem_map.mp hcx2 with ⟨o, ho, rfl⟩
            have h2 := h o (List.mem_cons_of_mem _ ho)
            rw [Bool.and_eq_true]
            refine ⟨by simpa using h2.1, by simpa using h2.2⟩
    split_ifs with hmin hfo
    · simp only [true_iff]
      exact ⟨hlen', Or.inl (hA.mp hmin)⟩
    · simp only [true_iff]
      refine ⟨hlen', Or.inr (Or.inl (hB.mp ?_))⟩
      simpa [Bool.and_eq_true] using hfo
    · constructor
      · intro h
        exact ⟨hlen', Or.inr (Or.inr (hC.mp h))⟩
      · rintro ⟨_, hcase | hcase | hcase⟩
        · exact absurd (hA.mpr hcase) hmin
        · exact absurd (by simpa [Bool.and_eq_true] using hB.mpr hcase) hfo
        · exact hC.mpr hcase

/-- Witness: an `ok`/`failed` contradictory pair at distant lines is a true
duplicate. -/
theorem is_true_duplicate_iff_witness :
    is_true_duplicate [⟨"a", "ok", 10, [], []⟩, ⟨"a", "failed", 40, [], []⟩] = true :=
  (is_true_duplicate_iff [⟨"a", "ok", 10, [], []⟩, ⟨"a", "failed", 40, [], []⟩]).mpr
    (by decide)

/-! ## C8 — The `failures:` block scan -/

/-- A `failures:` banner followed by an indented name, a blank line, and a
second indented name. -/
def c8Text : String := "failures:\n    a\n\n    b"

/-- Counterexample to C8's stopping rule: collection does not stop at the
blank line — `b` is still added to the failed set. -/
theorem failures_block_blank_counterexample :
    "b" ∈ (parseRustLogContent c8Text).failed := by
  decide

lemma failuresStep_failed_mono (b : Bool) (s : SetsT) (line : String) (x : String)
    (hx : x ∈ s.failed) : x ∈ (failuresStep (b, s) line).2.failed := by
  simp only [failuresStep]
  by_cases h1 : trimStr line = "failures:"
  · rw [if_pos h1]
    exact hx
  · rw [if_neg h1]
    cases b with
    | false => exact hx
    | true =>
      rw [if_pos rfl]
      by_cases h2 : (sw (trimStr line) "error:" || sw (trimStr line) "test result:") = true
      · rw [if_pos h2]
        exact hx
      · rw [if_neg h2]
        cases hc : reCapture1 Rx.FAILURES_BLOCK_RE line with
        | some name =>
          by_cases h3 : sw name "----" = true
          · simp only [h3, if_true]
            exact hx
          · simp only [h3, if_false]
            exact mem_insS_of_mem _ _ _ hx
        | none =>
          by_cases h4 : (trimStr line = "" || sw (trimStr line) "----") = true
          · rw [if_pos h4]
            exact hx
          · rw [if_neg h4]
            exact hx

lemma failuresFold_failed_mono (lines : List String) :
    ∀ (acc : Bool × SetsT) (x : String), x ∈ acc.2.failed →
      x ∈ ((lines.foldl failuresStep acc).2).failed := by
  induction lines with
  | nil => intro acc x hx; exact hx
  | cons l rest ih =>
    intro acc x hx
    rw [List.foldl_cons]
    exact ih (failuresStep acc l) x (failuresStep_failed_mono acc.1 acc.2 l x hx)

/-- A line that keeps the scan collecting: the banner itself, or a
non-stopping line (a capture, a blank, or a `----` line). -/
def keepsCollecting (l : String) : Prop :=
  trimStr l = "failures:" ∨
    (¬ sw (trimStr l) "error:" = true ∧ ¬ sw (trimStr l) "test result:" = true ∧
     ((reCapture1 Rx.FAILURES_BLOCK_RE l).isSome ∨ trimStr l = "" ∨
      sw (trimStr l) "----" = true))

lemma failuresStep_keeps (s : SetsT) (l : String) (h : keepsCollecting l) :
    (failuresStep (true, s) l).1 = true := by
  simp only [failuresStep]
  rcases h with h1 | ⟨h2, h3, h4⟩
  · rw [if_pos h1]
  · by_cases h1 : trimStr l = "failures:"
    · rw [if_pos h1]
    · rw [if_neg h1, if_pos trivial]
      have hstop : ¬ (sw (trimStr l) "error:" || sw (trimStr l) "test result:") = true := by
        simp [h2, h3]
      rw [if_neg hstop]
      rcases h4 with hcap | hblank | hdash
      · cases hc : reCapture1 Rx.FAILURES_BLOCK_RE l with
        | some name => by_cases hd : sw name "----" = true <;> simp [hd]
        | none => rw [hc] at hcap; simp at hcap
      · cases hc : reCapture1 Rx.FAILURES_BLOCK_RE l with
        | some name => by_cases hd : sw name "----" = true <;> simp [hd]
        | none =>
          have : (trimStr l = "" || sw (trimStr l) "----") = true := by simp [hblank]
          rw [if_pos this]
      · cases hc : reCapture1 Rx.FAILURES_BLOCK_RE l with
        | some name => by_cases hd : sw name "----" = true <;> simp [hd]
        | none =>
          have : (trimStr l = "" || sw (trimStr l) "----") = true := by simp [hdash]
          rw [if_pos this]

lemma failures_collect_through :
    ∀ (mid : List String), (∀ l ∈ mid, keepsCollecting l) →
      ∀ (post : List String) (s : SetsT) (nameLine name : String),
        reCapture1 Rx.FAILURES_BLOCK_RE nameLine = some name →
        sw name "----" = false →
        trimStr nameLine ≠ "failures:" →
        sw (trimStr nameLine) "error:" = false →
        sw (trimStr nameLine) "test result:" = false →
        name ∈ (((mid ++ nameLine :: post).foldl failuresStep (true, s)).2).failed := by
  intro mid
  induction mid with
  | nil =>
    intro _ post s nameLine name hcap hdash hban herr hres
    rw [List.nil_append, List.foldl_cons]
    have hstep : failuresStep (true, s) nameLine =
        (true, { s with failed := insS s.failed name }) := by
      simp only [failuresStep]
      rw [if_neg hban, if_pos trivial]
      have hstop : ¬ (sw (trimStr nameLine) "error:" ||
          sw (trimStr nameLine) "test result:") = true := by
        simp [herr, hres]
      rw [if_neg hstop, hcap]
      simp [hdash]
    rw [hstep]
    exact failuresFold_failed_mono post _ name (self_mem_insS _ _)
  | cons l mid ih =>
    intro hmid post s nameLine name hcap hdash hban herr hres
    rw [List.cons_append, List.foldl_cons]
    have hl := hmid l (List.mem_cons_self l mid)
    have hkeep := failuresStep_keeps s l hl
    have hpair : failuresStep (true, s) l = (true, (failuresStep (true, s) l).2) := by
      rcases hstep : failuresStep (true, s) l with ⟨b2, s2⟩
      rw [hstep] at hkeep
      simp at hkeep
      rw [hkeep]
    rw [hpair]
    exact ih (fun l2 hl2 => hmid l2 (List.mem_cons_of_mem l hl2)) post _ nameLine name
      hcap hdash hban herr hres

/-- A line that stops the scan while collecting: not the banner, and
either its trimmed form starts with `error:` or `test result:`, or it has
no `FAILURES_BLOCK_RE` capture and is neither blank nor a trimmed `----`
line. -/
def stopsCollecting (l : String) : Prop :=
  trimStr l ≠ "failures:" ∧
    (sw (trimStr l) "error:" = true ∨ sw (trimStr l) "test result:" = true ∨
     (reCapture1 Rx.FAILURES_BLOCK_RE l = none ∧ trimStr l ≠ "" ∧
      sw (trimStr l) "----" = false))

lemma failuresStep_stop (s : SetsT) (l : String) (h : stopsCollecting l) :
    failuresStep (true, s) l = (false, s) := by
  simp only [failuresStep]
  rw [if_neg h.1, if_pos trivial]
  by_cases hstop : (sw (trimStr l) "error:" || sw (trimStr l) "test result:") = true
  · rw [if_pos hstop]
  · rw [if_neg hstop]
    rw [Bool.or_eq_true] at hstop
    rcases h.2 with herr | hres | ⟨hc, hnb, hnd⟩
    · exact absurd (Or.inl herr) hstop
    · exact absurd (Or.inr hres) hstop
    · rw [hc, if_neg (by simp [hnb, hnd])]

lemma failuresFold_inert (lines : List String) :
    (∀ l ∈ lines, trimStr l ≠ "failures:") → ∀ st : SetsT,
      lines.foldl failuresStep (false, st) = (false, st) := by
  induction lines with
  | nil => intro _ st; rfl
  | cons l rest ih =>
    intro h st
    rw [List.foldl_cons]
    have hstep : failuresStep (false, st) l = (false, st) := by
      simp only [failuresStep]
      rw [if_neg (h l (List.mem_cons_self l rest))]
      simp
    rw [hstep]
    exact ih (fun l2 hl2 => h l2 (List.mem_cons_of_mem l hl2)) st

lemma failuresFold_keeps (mid : List String) :
    (∀ l ∈ mid, keepsCollecting l) → ∀ s : SetsT,
      (mid.foldl failuresStep (true, s)).1 = true := by
  induction mid with
  | nil => intro _ s; rfl
  | cons l rest ih =>
    intro h s
    rw [List.foldl_cons]
    have hkeep := failuresStep_keeps s l (h l (List.mem_cons_self l rest))
    have hpair : failuresStep (true, s) l = (true, (failuresStep (true, s) l).2) := by
      rcases hstep : failuresStep (true, s) l with ⟨b2, s2⟩
      rw [hstep] at hkeep
      simp at hkeep
      rw [hkeep]
    rw [hpair]
    exact ih (fun l2 hl2 => h l2 (List.mem_cons_of_mem l hl2)) _

lemma failuresStep_collecting_iff (s : SetsT) (l : String) :
    ((failuresStep (true, s) l).1 = true) ↔ keepsCollecting l := by
  by_cases h1 : trimStr l = "failures:"
  · apply iff_of_true
    · simp only [failuresStep]
      rw [if_pos h1]
    · exact Or.inl h1
  · by_cases h2 : (sw (trimStr l) "error:" || sw (trimStr l) "test result:") = true
    · apply iff_of_false
      · simp only [failuresStep]
        rw [if_neg h1, if_pos trivial, if_pos h2]
        simp
      · intro hk
        rcases hk with hb | ⟨he, hr, _⟩
        · exact h1 hb
        · rw [Bool.or_eq_true] at h2
          rcases h2 with h2 | h2
          · exact he h2
          · exact hr h2
    · cases hc : reCapture1 Rx.FAILURES_BLOCK_RE l with
      | some name =>
        apply iff_of_true
        · simp only [failuresStep]
          rw [if_neg h1, if_pos trivial, if_neg h2, hc]
        · rw [Bool.or_eq_true] at h2
          exact Or.inr ⟨fun h => h2 (Or.inl h), fun h => h2 (Or.inr h),
            Or.inl (by rw [hc]; rfl)⟩
      | none =>
        by_cases h4 : (trimStr l = "" || sw (trimStr l) "----") = true
        · apply iff_of_true
          · simp only [failuresStep]
            rw [if_neg h1, if_pos trivial, if_neg h2, hc, if_pos h4]
          · rw [Bool.or_eq_true] at h2
            have h4' : trimStr l = "" ∨ sw (trimStr l) "----" = true := by
              simpa using h4
            exact Or.inr ⟨fun h => h2 (Or.inl h), fun h => h2 (Or.inr h), Or.inr h4'⟩
        · apply iff_of_false
          · simp only [failuresStep]
            rw [if_neg h1, if_pos trivial, if_neg h2, hc, if_neg h4]
            simp
          · intro hk
            rcases hk with hb | ⟨_, _, hcap | hbl | hdash⟩
            · exact h1 hb
            · rw [hc] at hcap
              simp at hcap
            · exact h4 (by simp [hbl])
            · exact h4 (by simp [hdash])

lemma failures_stop_scan :
    ∀ (mid : List String), (∀ l ∈ mid, keepsCollecting l) →
      ∀ (stopLine : String) (post : List String) (b : Bool) (st0 : SetsT),
        stopsCollecting stopLine →
        (∀ l ∈ post, trimStr l ≠ "failures:") →
        (("failures:" :: (mid ++ stopLine :: post)).foldl failuresStep (b, st0)).2
          = (("failures:" :: mid).foldl failuresStep (b, st0)).2 := by
  intro mid hmid stopLine post b st0 hstop hpost
  rw [List.foldl_cons, List.foldl_cons]
  have hbanner : failuresStep (b, st0) "failures:" = (true, st0) := by
    simp only [failuresStep]
    rw [if_pos (show trimStr "failures:" = "failures:" by decide)]
  rw [hbanner, List.foldl_append, List.foldl_cons]
  have hm1 := failuresFold_keeps mid hmid st0
  rcases hfold : mid.foldl failuresStep (true, st0) with ⟨b2, s2⟩
  rw [hfold] at hm1
  simp at hm1
  subst hm1
  rw [failuresStep_stop s2 stopLine hstop, failuresFold_inert post hpost s2]

/-- A `failures:` banner, then an indented line merely containing
`error:` in mid-text, then a line whose trimmed form starts with
`error:`, then another indented name. -/
def c8StopText : String := "failures:\n    x error: y\nerror: boom\n    c"

/-- C8 (amended): the collection and stop rules of the `failures:` block
scan.  (1) While collecting, the scan keeps collecting after a line
exactly when that line is the banner, or trim-starts with neither
`error:` nor `test result:` and is a `FAILURES_BLOCK_RE` capture, blank,
or a trimmed `----` line; in particular a blank line does not stop it.
(2) Any capture line reached while collecting whose right-trimmed
captured name does not start with `----` contributes that name to the
failed set.  (3) After a stop line — one whose trimmed form starts with
`error:` or `test result:`, or any other non-capture, non-blank,
non-`----` line — subsequent lines contribute nothing until a new
banner.  (4) Concretely, an indented line merely containing `error:` in
mid-text is collected rather than treated as a stop, while a line whose
trimmed form starts with `error:` stops the block, so the name after it
is not collected. -/
theorem failures_block_amended :
    (∀ (s : SetsT) (l : String),
        ((failuresStep (true, s) l).1 = true) ↔ keepsCollecting l) ∧
    (∀ (mid post : List String) (b : Bool) (st0 : SetsT) (nameLine name : String),
      (∀ l ∈ mid, keepsCollecting l) →
      reCapture1 Rx.FAILURES_BLOCK_RE nameLine = some name →
      sw name "----" = false →
      trimStr nameLine ≠ "failures:" →
      sw (trimStr nameLine) "error:" = false →
      sw (trimStr nameLine) "test result:" = false →
      name ∈
        ((("failures:" :: (mid ++ nameLine :: post)).foldl failuresStep (b, st0)).2).failed) ∧
    (∀ (mid : List String), (∀ l ∈ mid, keepsCollecting l) →
      ∀ (stopLine : String) (post : List String) (b : Bool) (st0 : SetsT),
        stopsCollecting stopLine →
        (∀ l ∈ post, trimStr l ≠ "failures:") →
        (("failures:" :: (mid ++ stopLine :: post)).foldl failuresStep (b, st0)).2
          = (("failures:" :: mid).foldl failuresStep (b, st0)).2) ∧
    ("x error: y" ∈ (parseRustLogContent c8StopText).failed ∧
     "c" ∉ (parseRustLogContent c8StopText).failed) := by
  refine ⟨failuresStep_collecting_iff, ?_, failures_stop_scan, by decide⟩
  intro mid post b st0 nameLine name hmid hcap hdash hban herr hres
  rw [List.foldl_cons]
  have hbanner : failuresStep (b, st0) "failures:" = (true, st0) := by
    simp only [failuresStep]
    rw [if_pos (show trimStr "failures:" = "failures:" by decide)]
  rw [hbanner]
  exact failures_collect_through mid hmid post st0 nameLine name hcap hdash hban herr hres

/-- Witness: the scan passes over a blank line and still collects the
indented `b` line, and an `error:`-trimmed stop line freezes the sets so
the lines after it contribute nothing. -/
theorem failures_block_amended_witness :
    ("b" ∈ ((("failures:" :: ([""] ++ "    b" :: [])).foldl failuresStep
        (false, (⟨[], [], []⟩ : SetsT))).2).failed) ∧
    ((("failures:" :: ([] ++ "error: boom" :: ["    c"])).foldl failuresStep
        (false, (⟨[], [], []⟩ : SetsT))).2
      = (("failures:" :: []).foldl failuresStep (false, (⟨[], [], []⟩ : SetsT))).2) := by
  constructor
  · refine failures_block_amended.2.1 [""] [] false ⟨[], [], []⟩ "    b" "b" ?_
      (by decide) (by decide) (by decide) (by decide) (by decide)
    intro l hl
    simp only [List.mem_singleton] at hl
    subst hl
    right
    exact ⟨by decide, by decide, Or.inr (Or.inl (by decide))⟩
  · refine failures_block_amended.2.2.1 [] ?_ "error: boom" ["    c"] false ⟨[], [], []⟩ ?_ ?_
    · intro l hl
      simp at hl
    · exact ⟨by decide, Or.inl (by decide)⟩
    · intro l hl
      simp only [List.mem_singleton] at hl
      subst hl
      decide

/-! ## C9 — Required logs abort the analysis; agent/report are optional -/

/-- C9: `analyze_logs` returns an error whenever the base, before, or after
log path is absent from the supplied file paths; when the required inputs
are present and readable, a missing agent log and an absent or unparsable
report.json do not abort the analysis — the result is computed with `none`
for both optional inputs. -/
theorem analyze_logs_required_optional :
    (∀ (parseJson : String → Option Json) (fs : String → Option String)
        (file_paths : List String),
      (findPathContaining file_paths "base.log" = none ∨
       findPathContaining file_paths "before.log" = none ∨
       findPathContaining file_paths "after.log" = none) →
      (analyze_logs parseJson fs file_paths).isOk = false)
    ∧ (∀ (parseJson : String → Option Json) (fs : String → Option String)
        (file_paths : List String) (mp mc : String) (mj : Json) (bp befp ap : String)
        (bc befc ac : String),
        findMainJson file_paths = some mp → fs mp = some mc → parseJson mc = some mj →
        findPathContaining file_paths "base.log" = some bp → fs bp = some bc →
        findPathContaining file_paths "before.log" = some befp → fs befp = some befc →
        findPathContaining file_paths "after.log" = some ap → fs ap = some ac →
        findAgentLog file_paths = none →
        reportDataOf parseJson fs file_paths = none →
        analyze_logs parseJson fs file_paths =
          .ok (generate_analysis_result fs (parseRustLogContent bc)
            (parseRustLogContent befc) (parseRustLogContent ac) none
            (strListField mj "pass_to_pass") (strListField mj "fail_to_pass")
            bp befp ap none none file_paths))
    ∧ (∀ (parseJson : String → Option Json) (fs : String → Option String)
        (file_paths : List String), findReportJson file_paths = none →
        reportDataOf parseJson fs file_paths = none)
    ∧ (∀ (parseJson : String → Option Json) (fs : String → Option String)
        (file_paths : List String) (rp c : String), findReportJson file_paths = some rp →
        fs rp = some c → parseJson c = none →
        reportDataOf parseJson fs file_paths = none) := by
  refine ⟨?_, ?_, ?_, ?_⟩
  · intro parseJson fs file_paths hreq
    cases hm : findMainJson file_paths with
    | none => simp [analyze_logs, hm, Except.isOk, Except.toBool]
    | some mp =>
      cases hr : fs mp with
      | none => simp [analyze_logs, hm, hr, Except.isOk, Except.toBool]
      | some mc =>
        cases hj : parseJson mc with
        | none => simp [analyze_logs, hm, hr, hj, Except.isOk, Except.toBool]
        | some mj =>
          rcases hreq with h | h | h
          · simp [analyze_logs, hm, hr, hj, h, Except.isOk, Except.toBool]
          · cases hb : findPathContaining file_paths "base.log" with
            | none => simp [analyze_logs, hm, hr, hj, hb, Except.isOk, Except.toBool]
            | some bp => simp [analyze_logs, hm, hr, hj, hb, h, Except.isOk, Except.toBool]
          · cases hb : findPathContaining file_paths "base.log" with
            | none => simp [analyze_logs, hm, hr, hj, hb, Except.isOk, Except.toBool]
            | some bp =>
              cases hbef : findPathContaining file_paths "before.log" with
              | none => simp [analyze_logs, hm, hr, hj, hb, hbef, Except.isOk, Except.toBool]
              | some befp => simp [analyze_logs, hm, hr, hj, hb, hbef, h, Except.isOk, Except.toBool]
  · intro parseJson fs file_paths mp mc mj bp befp ap bc befc ac hm hmr hmj hb hbc hbef
      hbefc ha hac hag hrep
    simp [analyze_logs, parse_rust_log_file, hm, hmr, hmj, hb, hbc, hbef, hbefc, ha, hac,
      hag, hrep]
  · intro parseJson fs file_paths hfind
    simp [reportDataOf, hfind]
  · intro parseJson fs file_paths rp c hfind hread hparse
    simp [reportDataOf, hfind, hread, hparse]

/-- Concrete inputs for the `analyze_logs` witness. -/
def c9Paths : List String := ["x/main.json", "a/base.log", "a/before.log", "a/after.log"]

def c9Fs : String → Option String := fun p => if p ∈ c9Paths then some "" else none

def c9Pj : String → Option Json := fun _ => some (Json.obj [])

/-- Witness: with all three required logs present and no agent log or
report.json, the analysis succeeds and is computed without the optional
inputs. -/
theorem analyze_logs_required_optional_witness :
    (findMainJson c9Paths = some "x/main.json" ∧ findAgentLog c9Paths = none ∧
      findReportJson c9Paths = none) ∧
    analyze_logs c9Pj c9Fs c9Paths =
      .ok (generate_analysis_result c9Fs (parseRustLogContent "") (parseRustLogContent "")
        (parseRustLogContent "") none (strListField (Json.obj []) "pass_to_pass")
        (strListField (Json.obj []) "fail_to_pass") "a/base.log" "a/before.log"
        "a/after.log" none none c9Paths) := by
  refine ⟨⟨by decide, by decide, by decide⟩, ?_⟩
  exact analyze_logs_required_optional.2.1 c9Pj c9Fs c9Paths "x/main.json" "" (Json.obj [])
    "a/base.log" "a/before.log" "a/after.log" "" "" ""
    (by decide) (by decide) rfl (by decide) (by decide) (by decide) (by decide) (by decide)
    (by decide) (by decide)
    (analyze_logs_required_optional.2.2.1 c9Pj c9Fs c9Paths (by decide))

end SwebenchReviewer
